import Mathlib

set_option maxHeartbeats 1000000

/-!
Verification development for the row classification and flagging engine of
`top_media_combiner.py` (Top Media Combiner).  The Python string/list
operations are shallowly embedded over `List Char`; network calls
(`requests.get`) and the HTML byline scraper are modelled as oracle
parameters, and the two external library functions used by the classifier
(`urllib.parse.urlparse`, `tldextract.extract`) are modelled explicitly.
-/

namespace TopMediaCombiner

/- ### Character and string primitives (models of the Python str methods) -/

/-- Models Python `str.lower` on one character (ASCII letters; the data the
pipeline handles — URLs, outlet names, locale tokens — is ASCII). -/
def lowerChar (c : Char) : Char :=
  if c = 'A' then 'a' else if c = 'B' then 'b' else if c = 'C' then 'c'
  else if c = 'D' then 'd' else if c = 'E' then 'e' else if c = 'F' then 'f'
  else if c = 'G' then 'g' else if c = 'H' then 'h' else if c = 'I' then 'i'
  else if c = 'J' then 'j' else if c = 'K' then 'k' else if c = 'L' then 'l'
  else if c = 'M' then 'm' else if c = 'N' then 'n' else if c = 'O' then 'o'
  else if c = 'P' then 'p' else if c = 'Q' then 'q' else if c = 'R' then 'r'
  else if c = 'S' then 's' else if c = 'T' then 't' else if c = 'U' then 'u'
  else if c = 'V' then 'v' else if c = 'W' then 'w' else if c = 'X' then 'x'
  else if c = 'Y' then 'y' else if c = 'Z' then 'z' else c

/-- Models Python `str.upper` on one character (ASCII letters). -/
def upperChar (c : Char) : Char :=
  if c = 'a' then 'A' else if c = 'b' then 'B' else if c = 'c' then 'C'
  else if c = 'd' then 'D' else if c = 'e' then 'E' else if c = 'f' then 'F'
  else if c = 'g' then 'G' else if c = 'h' then 'H' else if c = 'i' then 'I'
  else if c = 'j' then 'J' else if c = 'k' then 'K' else if c = 'l' then 'L'
  else if c = 'm' then 'M' else if c = 'n' then 'N' else if c = 'o' then 'O'
  else if c = 'p' then 'P' else if c = 'q' then 'Q' else if c = 'r' then 'R'
  else if c = 's' then 'S' else if c = 't' then 'T' else if c = 'u' then 'U'
  else if c = 'v' then 'V' else if c = 'w' then 'W' else if c = 'x' then 'X'
  else if c = 'y' then 'Y' else if c = 'z' then 'Z' else c

/-- Models Python `str.lower` (ASCII). -/
def lowerS (s : String) : String := String.mk (s.data.map lowerChar)

/-- Models Python `str.upper` (ASCII). -/
def upperS (s : String) : String := String.mk (s.data.map upperChar)

/-- The whitespace characters stripped by Python `str.strip()` (ASCII set). -/
def isSpaceChar (c : Char) : Bool :=
  c == ' ' || c == '\t' || c == '\n' || c == '\r' || c == '\x0b' || c == '\x0c'

/-- Drop trailing whitespace of a character list. -/
def rtrimL (l : List Char) : List Char := (l.reverse.dropWhile isSpaceChar).reverse

/-- Strip leading and trailing whitespace of a character list. -/
def trimL (l : List Char) : List Char := rtrimL (l.dropWhile isSpaceChar)

/-- Models Python `str.strip()` (no argument form). -/
def trimS (s : String) : String := String.mk (trimL s.data)

def isLowerAlpha (c : Char) : Bool := 'a' ≤ c && c ≤ 'z'

def isUpperAlpha (c : Char) : Bool := 'A' ≤ c && c ≤ 'Z'

def isAlphaChar (c : Char) : Bool := isLowerAlpha c || isUpperAlpha c

def isDigitChar (c : Char) : Bool := '0' ≤ c && c ≤ '9'

/-- Models the Python substring test `pat in s`. -/
def containsSub (s pat : String) : Bool :=
  s.data.tails.any (fun t => pat.data.isPrefixOf t)

/-- Models Python `str.split(sep)` for a one-character separator. -/
def splitCharL (sep : Char) : List Char → List (List Char)
  | [] => [[]]
  | c :: cs =>
    if c = sep then [] :: splitCharL sep cs
    else
      match splitCharL sep cs with
      | h :: t => (c :: h) :: t
      | [] => [[c]]

/-- Models Python `str.split(sep)` for a one-character separator, on strings. -/
def splitOnChar (sep : Char) (s : String) : List String :=
  (splitCharL sep s.data).map (fun l => String.mk l)

/-- Models Python `str.endswith`. -/
def endsWithS (s suf : String) : Bool := suf.data.isSuffixOf s.data

/-- Models Python `str.rstrip("/")`. -/
def rstripSlashes (s : String) : String :=
  String.mk ((s.data.reverse.dropWhile (fun c => c == '/')).reverse)

/- ### MSN handling helpers (from the source) -/

/-- `_US_MSN_LOCALES` from the source: locales that are kept. -/
def usMsnLocales : List String := ["en-us", "es-us"]

/-- Core of `_msn_locale`: the anchored regex
`/([a-z]{2}-[a-z]{2})(?:/|$)` applied to an (already lowercased)
character list; returns the captured locale. -/
def msnLocCore : List Char → Option String
  | '/' :: a :: b :: '-' :: c :: d :: rest =>
    if isLowerAlpha a && isLowerAlpha b && isLowerAlpha c && isLowerAlpha d then
      match rest with
      | [] => some (String.mk [a, b, '-', c, d])
      | '/' :: _ => some (String.mk [a, b, '-', c, d])
      | _ => none
    else none
  | _ => none

/-- `_msn_locale` from the source: extracts the first path segment that looks
like a locale (e.g. `en-us`, `en-gb`) from a path, after lowercasing. -/
def msn_locale (path : String) : Option String := msnLocCore (lowerS path).data

/-- `resolve_url` from the source.  The outbound
`requests.get(url, allow_redirects=True, ...)` call is modelled by the
oracle `net`: `some r` is a successful request whose final redirected URL is
`r`, and `none` is any network failure (the bare `except:` branch).
The input is `Option String`, `none` modelling a pandas NaN permalink. -/
def resolve_url (net : String → Option String) (url : Option String) : String :=
  match url with
  | none => ""
  | some u =>
    if u = "" then ""
    else if containsSub (lowerS u) "msn.com" then u
    else
      match net u with
      | some finalUrl => finalUrl
      | none => u

/- ### Non-US locale detection (from the source) -/

def NON_US_SUBDOMAIN_TOKENS : List String :=
  ["uk", "gb", "au", "me", "sea", "ca", "sg", "hk", "nz", "ie", "eu", "mena",
   "latam", "sa", "za",
   "de", "fr", "es", "it", "nl", "se", "no", "dk", "fi", "pl", "tr",
   "jp", "kr", "cn", "tw", "vn", "th", "ph", "my", "id",
   "ae", "qa", "kw", "bh",
   "br", "mx", "ar", "cl", "co", "pe",
   "apac", "emea"]

def PATH_LOCALE_ALLOWED_DOMAINS : List String :=
  ["techradar.com", "www.techradar.com",
   "tomsguide.com", "www.tomsguide.com",
   "gamesradar.com", "www.gamesradar.com",
   "androidcentral.com", "www.androidcentral.com",
   "windowscentral.com", "www.windowscentral.com",
   "laptopmag.com", "www.laptopmag.com",
   "imore.com", "www.imore.com",
   "ign.com", "www.ign.com",
   "cnet.com", "www.cnet.com",
   "forbes.com", "www.forbes.com",
   "yahoo.com", "www.yahoo.com",
   "bbc.com", "www.bbc.com",
   "engadget.com", "www.engadget.com",
   "digitaltrends.com", "www.digitaltrends.com"]

/-- `PATH_LOCALE_TOKENS` from the source (reuses the subdomain tokens). -/
def PATH_LOCALE_TOKENS : List String := NON_US_SUBDOMAIN_TOKENS

/-- The explicit US variants exempted by `mark_non_us_url`. -/
def usPathExemptTokens : List String := ["us", "en-us", "en_us"]

/-- `_lang_region_re` from the source: the case-insensitive regex
`^[a-z]{2,3}[-_]([a-z]{2}|[a-z]{3})$` (e.g. `en-gb`, `pt-br`, `en_US`). -/
def lang_region_match (s : String) : Bool :=
  let l := (lowerS s).data
  let lang := l.takeWhile isLowerAlpha
  match l.dropWhile isLowerAlpha with
  | sep :: regn =>
    (lang.length == 2 || lang.length == 3) && (sep == '-' || sep == '_')
      && regn.all isLowerAlpha && (regn.length == 2 || regn.length == 3)
  | [] => false

/-- Scheme characters accepted by `urllib.parse` (letters, digits, `+-.`). -/
def isSchemeChar (c : Char) : Bool :=
  isAlphaChar c || isDigitChar c || c == '+' || c == '-' || c == '.'

/-- Modelled from Python `urllib.parse.urlparse`: returns the `netloc` and
`path` components of a URL string.  `none` models the `ValueError`
("Invalid IPv6 URL") raised when the netloc contains an unmatched square
bracket; queries and fragments are cut off the path. -/
def urlparseNetlocPath (s : String) : Option (String × String) :=
  let l := s.data
  let afterScheme :=
    match l.takeWhile isSchemeChar, l.dropWhile isSchemeChar with
    | c :: _, ':' :: rest => if isAlphaChar c then rest else l
    | _, _ => l
  match afterScheme with
  | '/' :: '/' :: r =>
    let netloc := r.takeWhile (fun c => !(c == '/' || c == '?' || c == '#'))
    let tail := r.dropWhile (fun c => !(c == '/' || c == '?' || c == '#'))
    if (netloc.contains '[' && !netloc.contains ']')
        || (netloc.contains ']' && !netloc.contains '[') then none
    else
      some (String.mk netloc,
            String.mk (tail.takeWhile (fun c => !(c == '?' || c == '#'))))
  | r => some ("", String.mk (r.takeWhile (fun c => !(c == '?' || c == '#'))))

/-- `_base_domain_and_subtokens` from the source.  The call to
`tldextract.extract` is modelled for hosts whose public suffix is a single
dot-label (every domain the pipeline's rules mention — `.com` — is of this
form): the final label is the suffix, the label before it the registrable
domain, the rest the subdomain labels. -/
def base_domain_and_subtokens (host : String) : String × List String :=
  let labels := splitOnChar '.' (lowerS host)
  match labels.reverse with
  | suf :: dom :: subsRev =>
    let base :=
      if dom = "" then suf else if suf = "" then dom else dom ++ "." ++ suf
    (base, subsRev.reverse.filter (fun t => !(t == "")))
  | [dom] => (dom, [])
  | [] => ("", [])

/-- The first non-empty path segment, lowercased:
`next((seg for seg in p.path.split("/") if seg), "").lower()`. -/
def first_path_segment (path : String) : String :=
  lowerS (((splitOnChar '/' path).filter (fun seg => !(seg == ""))).headD "")

/-- `mark_non_us_url` from the source: `true` if the URL is clearly non-US
(subdomain token, or allow-listed first path segment).  The `try/except`
that returns `False` on a parse failure is modelled by the `none` case. -/
def mark_non_us_url (u : String) : Bool :=
  if u = "" then false
  else
    match urlparseNetlocPath u with
    | none => false
    | some (netloc, path) =>
      let bs := base_domain_and_subtokens netloc
      if bs.2.any (fun tok => NON_US_SUBDOMAIN_TOKENS.contains tok) then true
      else if PATH_LOCALE_ALLOWED_DOMAINS.contains bs.1 then
        let seg := first_path_segment path
        if PATH_LOCALE_TOKENS.contains seg || lang_region_match seg then
          if endsWithS seg "us" || usPathExemptTokens.contains seg then false
          else true
        else false
      else false

/- ### Journalist scraping (from the source) -/

def TARGET_SCRAPE_DOMAINS : List String :=
  ["forbes.com", "www.forbes.com",
   "techradar.com", "www.techradar.com",
   "tomsguide.com", "www.tomsguide.com"]

/-- `fill_missing_journalist` from the source.  The HTML fetch plus byline
extraction (`_fetch_html` + `_extract_author_from_html`) is modelled by the
oracle `scrape`, which returns the byline text obtained for a fetched URL
(`""` models both a fetch failure and no byline found on the page). -/
def fill_missing_journalist (scrape : String → String)
    (permalink journalist : String) : String :=
  if trimS journalist ≠ "" then journalist
  else
    match urlparseNetlocPath permalink with
    | none => journalist
    | some (netloc, _) =>
      let host := lowerS netloc
      if TARGET_SCRAPE_DOMAINS.contains host then
        let name1 := scrape permalink
        if name1 ≠ "" then name1
        else
          let name2 := scrape (rstripSlashes permalink ++ "/amp")
          if name2 ≠ "" then name2 else journalist
      else journalist

/- ### Group/Outlet mapping (from the source) -/

/-- The regex substitution `re.sub(r"^[a-z]+://[^/]+", "", s)` used to strip
the scheme and host from a (lowercased) URL, both in `map_group_outlet` and
for the `path_series` of the flag engine. -/
def stripSchemeHostL (l : List Char) : List Char :=
  match l.takeWhile isLowerAlpha, l.dropWhile isLowerAlpha with
  | _ :: _, ':' :: '/' :: '/' :: rest2 =>
    match rest2.takeWhile (fun c => !(c == '/')),
          rest2.dropWhile (fun c => !(c == '/')) with
    | [], _ => l
    | _ :: _, tail => tail
  | _, _ => l

def stripSchemeHost (s : String) : String := String.mk (stripSchemeHostL s.data)

/-- One reference row of the "Detailed List for Msmt" sheet of the master
outlet workbook (fields already rendered to strings; a pandas NaN reads back
as the string "nan", as in the source's `str(row[...])`). -/
structure OutletRef where
  outletName : String
  outletNameFromSearches : String
  url : String
  vertical : String

/-- The lookup keys one reference row contributes to `master_map`
(the three fields, stripped and lowercased, blank and "nan" excluded).
The `outletName` field is stripped twice because the source strips that
column before the map is built and again when the key is formed. -/
def refKeys (r : OutletRef) : List String :=
  ([lowerS (trimS (trimS r.outletName)),
    lowerS (trimS r.outletNameFromSearches),
    lowerS (trimS r.url)]).filter (fun k => !(k == "") && !(k == "nan"))

/-- All `master_map[key] = {'Group': ..., 'Outlet': ...}` insertions, in
execution order: one triple `(key, group, outlet)` per key of each row. -/
def masterInsertions (refs : List OutletRef) : List (String × String × String) :=
  (refs.map (fun r =>
    (refKeys r).map (fun k => (k, r.vertical, trimS r.outletName)))).flatten

/-- Lookup in the dict built by the insertions: the LAST insertion for a key
wins (Python dict assignment semantics). -/
def masterMapLookup (refs : List OutletRef) (key : String) :
    Option (String × String) :=
  ((masterInsertions refs).reverse.find? (fun e => e.1 == key)).map
    (fun e => e.2)

/-- `map_group_outlet` from the source: explicit MSN/Yahoo rules first, then
the master-map fallback keyed by publication name, then URL. -/
def map_group_outlet (url pub_name : String)
    (master_map : String → Option (String × String)) : String × String :=
  let url_lc := lowerS (trimS url)
  let pub_name_lc := lowerS (trimS pub_name)
  if containsSub url_lc "msn.com" then
    match msn_locale (stripSchemeHost url_lc) with
    | some loc =>
      if usMsnLocales.contains loc then ("Tech", "MSN")
      else ("REMOVE", "REMOVE")
    | none => ("REMOVE", "REMOVE")
  else if containsSub url_lc "sports.yahoo" then ("Lifestyle", "Yahoo! Sports")
  else if containsSub url_lc "yahoo.com/entertainment" then
    ("Lifestyle", "Yahoo! Entertainment")
  else if containsSub url_lc "yahoo.com/lifestyle" then
    ("Lifestyle", "Yahoo! Lifestyle")
  else if containsSub url_lc "finance.yahoo.com" then ("Tech", "Yahoo! Finance")
  else if containsSub url_lc "yahoo.com/news" then ("Tech", "Yahoo! News")
  else if containsSub url_lc "yahoo.com/tech" then ("Tech", "Yahoo! Tech")
  else
    match master_map pub_name_lc with
    | some go => go
    | none =>
      match master_map url_lc with
      | some go => go
      | none => ("", "")

/- ### ExUS author marking (from the source) -/

/-- One row of the "Journalist Check" sheet. -/
structure JournalistRef where
  publication : String
  name : String
  geo : String

/-- The composite key
`x['Publication'].str.lower().str.strip() + "|" + x['Name'].str.lower().str.strip()`. -/
def exusKey (pub journalist : String) : String :=
  trimS (lowerS pub) ++ "|" ++ trimS (lowerS journalist)

/-- `exus_keys` from the source: keys of the reference rows whose `Geo`
uppercases to `EXUS`. -/
def exusKeysOf (jrefs : List JournalistRef) : List String :=
  (jrefs.filter (fun r => upperS r.geo == "EXUS")).map
    (fun r => exusKey r.publication r.name)

/- ### The flag engine and the full pipeline (from the source) -/

/-- `combined['Resolved_Permalink'].str.contains('msn.com', case=False)`:
pandas compiles the pattern as a regex, so the dot matches ANY character;
the search is case-insensitive and unanchored. -/
def msnRegexContains (s : String) : Bool :=
  (lowerS s).data.tails.any (fun t =>
    match t with
    | 'm' :: 's' :: 'n' :: _ :: 'c' :: 'o' :: 'm' :: _ => true
    | _ => false)

/-- An input row of the combined frame, as handed to the processing loop
(after column mapping; `none` permalink models a pandas NaN). -/
structure InRow where
  pub : String
  journalist : String
  permalink : Option String

/-- A row after the resolution loop: resolved URL, backfilled journalist,
group/outlet mapping and the non-US flag. -/
structure ProcRow where
  pub : String
  journalist : String
  resolved : String
  group : String
  outlet : String
  nonus : Bool

/-- A fully flagged output row. -/
structure OutRow where
  pub : String
  journalist : String
  resolved : String
  group : String
  outlet : String
  exus : String
  flag : String
  reasons : List String
  rReason : String
deriving DecidableEq

/-- `sprinklr['Publication Name'].str.strip()` (and same for cision), applied
before the frames are concatenated. -/
def stripPubRow (r : InRow) : InRow :=
  InRow.mk (trimS r.pub) r.journalist r.permalink

/-- One iteration of the main resolution loop (lines 428-450 of the source):
resolve the permalink, backfill the journalist, map group/outlet, and mark
the non-US flag. -/
def processRow (net : String → Option String) (scrape : String → String)
    (mm : String → Option (String × String)) (r : InRow) : ProcRow :=
  let resolved := resolve_url net r.permalink
  let jf := fill_missing_journalist scrape resolved r.journalist
  let go := map_group_outlet resolved r.pub mm
  ProcRow.mk r.pub jf resolved go.1 go.2 (mark_non_us_url resolved)

/-- Accumulator recursion behind `duplicated(keep='first')`. -/
def dupGo (seen : List String) : List String → List Bool
  | [] => []
  | x :: xs => seen.contains x :: dupGo (x :: seen) xs

/-- `combined.duplicated(subset=['Resolved_Permalink_lower'], keep='first')`:
`true` exactly at the second and later occurrences of each value. -/
def duplicatedKeepFirst (l : List String) : List Bool := dupGo [] l

/-- The fixed reason order of `_add_reason` (lines 501-506 of the source). -/
def reasonOrder : List String :=
  ["Duplicate URL", "ExUS Author", "REMOVE Group", "REMOVE Outlet",
   "MSN Non-US", "Non-US URL"]

/-- The ordered reason list a row accumulates, given its six mask bits
(lines 496-506 of the source; the generic non-US label is suppressed when
the MSN-specific one fires). -/
def rowReasons (dup exus rg ro nonus msnNonUs : Bool) : List String :=
  (if dup then ["Duplicate URL"] else []) ++
  (if exus then ["ExUS Author"] else []) ++
  (if rg then ["REMOVE Group"] else []) ++
  (if ro then ["REMOVE Outlet"] else []) ++
  (if msnNonUs then ["MSN Non-US"] else []) ++
  (if nonus && !msnNonUs then ["Non-US URL"] else [])

/-- The flag engine for one row (lines 458-508 of the source), given the
processed row and its `duplicated(keep='first')` bit. -/
def mkOutRow (exKeys : List String) (p : ProcRow) (dupSeen : Bool) : OutRow :=
  let dup := dupSeen && !(lowerS p.resolved == "")
  let exus := exKeys.contains (exusKey p.pub p.journalist)
  let rg := upperS p.group == "REMOVE"
  let ro := upperS p.outlet == "REMOVE"
  let msnNonUs := msnRegexContains p.resolved &&
    !(match msn_locale (stripSchemeHost (lowerS p.resolved)) with
      | some loc => usMsnLocales.contains loc
      | none => false)
  let rs := rowReasons dup exus rg ro p.nonus msnNonUs
  OutRow.mk p.pub p.journalist p.resolved p.group p.outlet
    (if exus then "Yes" else "")
    (if dup || exus || rg || ro || p.nonus || msnNonUs then "R" else "")
    rs
    (String.intercalate "; " rs)

/-- Pair each processed row with its duplicate bit and run the flag engine. -/
def flagRows (exKeys : List String) : List ProcRow → List Bool → List OutRow
  | p :: ps, d :: ds => mkOutRow exKeys p d :: flagRows exKeys ps ds
  | _, _ => []

/-- The processed rows of the main loop, in input order. -/
def procsOf (net : String → Option String) (scrape : String → String)
    (orefs : List OutletRef) (rows : List InRow) : List ProcRow :=
  (rows.map stripPubRow).map (processRow net scrape (masterMapLookup orefs))

/-- `combined['Resolved_Permalink'].str.lower()`, the dedup helper column. -/
def resolvedLowersOf (net : String → Option String) (scrape : String → String)
    (orefs : List OutletRef) (rows : List InRow) : List String :=
  (procsOf net scrape orefs rows).map (fun p => lowerS p.resolved)

/-- The `duplicated(keep='first')` bits of the run. -/
def dupsOf (net : String → Option String) (scrape : String → String)
    (orefs : List OutletRef) (rows : List InRow) : List Bool :=
  duplicatedKeepFirst (resolvedLowersOf net scrape orefs rows)

/-- The whole classification-and-flagging pipeline of the source on the
combined row list: strip publication names, run the resolution loop, then
the centralized `?`/`R Reason` logic.  The ExUS flag is (re)computed on the
backfilled journalist, as in lines 458-461 of the source. -/
def runPipeline (net : String → Option String) (scrape : String → String)
    (orefs : List OutletRef) (jrefs : List JournalistRef)
    (rows : List InRow) : List OutRow :=
  flagRows (exusKeysOf jrefs) (procsOf net scrape orefs rows)
    (dupsOf net scrape orefs rows)

/-- Order-preserving subsequence test (used to state that a reason list is
the fixed order list with some labels dropped). -/
def isSubseqL : List String → List String → Bool
  | [], _ => true
  | _ :: _, [] => false
  | a :: as, b :: bs => if a == b then isSubseqL as bs else isSubseqL (a :: as) bs

def lowerLetters : List Char :=
  ['a', 'b', 'c', 'd', 'e', 'f', 'g', 'h', 'i', 'j', 'k', 'l', 'm',
   'n', 'o', 'p', 'q', 'r', 's', 't', 'u', 'v', 'w', 'x', 'y', 'z']

def upperLetters : List Char :=
  ['A', 'B', 'C', 'D', 'E', 'F', 'G', 'H', 'I', 'J', 'K', 'L', 'M',
   'N', 'O', 'P', 'Q', 'R', 'S', 'T', 'U', 'V', 'W', 'X', 'Y', 'Z']

def emptyOutRow : OutRow := OutRow.mk "" "" "" "" "" "" "" [] ""

/-- A character list on which ASCII lowering is the identity. -/
def LoweredL (l : List Char) : Prop := ∀ c ∈ l, lowerChar c = c

/-- The first output row of a concrete one-row MSN run (used by the C1
witness). -/
def c1Row : OutRow :=
  (runPipeline (fun _ => none) (fun _ => "") [] []
    [InRow.mk "p" "j" (some "https://www.msn.com/en-gb/x")]).headD emptyOutRow

/- ### Basic structural lemmas about the pipeline -/

theorem dupGo_length (seen : List String) (l : List String) :
    (dupGo seen l).length = l.length := by
  induction l generalizing seen with
  | nil => rfl
  | cons x xs ih => simp [dupGo, ih]

theorem procsOf_length (net : String → Option String) (scrape : String → String)
    (orefs : List OutletRef) (rows : List InRow) :
    (procsOf net scrape orefs rows).length = rows.length := by
  simp [procsOf]

theorem resolvedLowersOf_length (net : String → Option String)
    (scrape : String → String) (orefs : List OutletRef) (rows : List InRow) :
    (resolvedLowersOf net scrape orefs rows).length = rows.length := by
  simp [resolvedLowersOf, procsOf_length]

theorem dupsOf_length (net : String → Option String) (scrape : String → String)
    (orefs : List OutletRef) (rows : List InRow) :
    (dupsOf net scrape orefs rows).length = rows.length := by
  simp [dupsOf, duplicatedKeepFirst, dupGo_length, resolvedLowersOf_length]

theorem flagRows_length (exKeys : List String) (ps : List ProcRow)
    (ds : List Bool) (h : ps.length = ds.length) :
    (flagRows exKeys ps ds).length = ps.length := by
  induction ps generalizing ds with
  | nil => cases ds <;> rfl
  | cons p ps ih =>
    cases ds with
    | nil => exact absurd h (by simp)
    | cons d ds => simp [flagRows, ih ds (by simpa using h)]

theorem runPipeline_length (net : String → Option String)
    (scrape : String → String) (orefs : List OutletRef)
    (jrefs : List JournalistRef) (rows : List InRow) :
    (runPipeline net scrape orefs jrefs rows).length = rows.length := by
  rw [runPipeline, flagRows_length, procsOf_length]
  rw [procsOf_length, dupsOf_length]

theorem lt_runPipeline_length (net : String → Option String)
    (scrape : String → String) (orefs : List OutletRef)
    (jrefs : List JournalistRef) (rows : List InRow) {i : Nat}
    (hi : i < rows.length) : i < (runPipeline net scrape orefs jrefs rows).length := by
  rw [runPipeline_length]; exact hi

theorem lt_procsOf_length (net : String → Option String)
    (scrape : String → String) (orefs : List OutletRef) (rows : List InRow)
    {i : Nat} (hi : i < rows.length) :
    i < (procsOf net scrape orefs rows).length := by
  rw [procsOf_length]; exact hi

theorem lt_dupsOf_length (net : String → Option String)
    (scrape : String → String) (orefs : List OutletRef) (rows : List InRow)
    {i : Nat} (hi : i < rows.length) :
    i < (dupsOf net scrape orefs rows).length := by
  rw [dupsOf_length]; exact hi

theorem flagRows_get (exKeys : List String) (ps : List ProcRow) (ds : List Bool)
    (i : Nat) (hp : i < ps.length) (hd : i < ds.length)
    (hf : i < (flagRows exKeys ps ds).length) :
    (flagRows exKeys ps ds).get ⟨i, hf⟩ =
      mkOutRow exKeys (ps.get ⟨i, hp⟩) (ds.get ⟨i, hd⟩) := by
  induction ps generalizing ds i with
  | nil => exact absurd hp (by simp)
  | cons p ps ih =>
    cases ds with
    | nil => exact absurd hd (by simp)
    | cons d ds =>
      cases i with
      | zero => rfl
      | succ n =>
        exact ih ds n (by simpa using hp) (by simpa using hd)
          (by simpa [flagRows] using hf)

theorem procsOf_get (net : String → Option String) (scrape : String → String)
    (orefs : List OutletRef) (rows : List InRow) (i : Nat)
    (hi : i < rows.length) (hp : i < (procsOf net scrape orefs rows).length) :
    (procsOf net scrape orefs rows).get ⟨i, hp⟩ =
      processRow net scrape (masterMapLookup orefs)
        (stripPubRow (rows.get ⟨i, hi⟩)) := by
  simp [procsOf]

theorem runPipeline_get (net : String → Option String)
    (scrape : String → String) (orefs : List OutletRef)
    (jrefs : List JournalistRef) (rows : List InRow) (i : Nat)
    (hi : i < rows.length) :
    (runPipeline net scrape orefs jrefs rows).get
        ⟨i, lt_runPipeline_length net scrape orefs jrefs rows hi⟩ =
      mkOutRow (exusKeysOf jrefs)
        ((procsOf net scrape orefs rows).get
          ⟨i, lt_procsOf_length net scrape orefs rows hi⟩)
        ((dupsOf net scrape orefs rows).get
          ⟨i, lt_dupsOf_length net scrape orefs rows hi⟩) := by
  exact flagRows_get _ _ _ _ _ _ _

theorem dupGo_get (seen : List String) (l : List String) (i : Nat)
    (hi : i < l.length) (hg : i < (dupGo seen l).length) :
    (dupGo seen l).get ⟨i, hg⟩ =
      (seen.contains (l.get ⟨i, hi⟩) || (l.take i).contains (l.get ⟨i, hi⟩)) := by
  induction l generalizing seen i with
  | nil => exact absurd hi (by simp)
  | cons x xs ih =>
    cases i with
    | zero => simp [dupGo]
    | succ n =>
      have hn : n < xs.length := by simpa using hi
      have hgn : n < (dupGo (x :: seen) xs).length := by
        rw [dupGo_length]; exact hn
      have := ih (x :: seen) n hn hgn
      simp only [dupGo, List.get_cons_succ, this, List.take_succ_cons]
      simp only [List.contains_cons]
      ac_rfl

theorem duplicatedKeepFirst_get (l : List String) (i : Nat) (hi : i < l.length)
    (hg : i < (duplicatedKeepFirst l).length) :
    (duplicatedKeepFirst l).get ⟨i, hg⟩ =
      (l.take i).contains (l.get ⟨i, hi⟩) := by
  simp only [duplicatedKeepFirst] at hg ⊢
  rw [dupGo_get [] l i hi hg]
  simp

theorem contains_take_iff (l : List String) (i : Nat) (hi : i < l.length) :
    ((l.take i).contains (l.get ⟨i, hi⟩) = true ↔
      ∃ j, ∃ hj : j < i,
        l.get ⟨j, Nat.lt_trans hj hi⟩ = l.get ⟨i, hi⟩) := by
  rw [List.contains, List.elem_iff, List.mem_take_iff_getElem]
  constructor
  · rintro ⟨j, hm, hja⟩
    exact ⟨j, lt_of_lt_of_le hm (min_le_left _ _), by
      simpa [List.get_eq_getElem] using hja⟩
  · rintro ⟨j, hj, hja⟩
    exact ⟨j, lt_min hj (Nat.lt_trans hj hi), by
      simpa [List.get_eq_getElem] using hja⟩

/- ### Per-row reason-list lemmas (case analysis on the six mask bits) -/

theorem mem_rowReasons_dup (d e g o nu m : Bool) :
    ("Duplicate URL" ∈ rowReasons d e g o nu m ↔ d = true) := by
  cases d <;> cases e <;> cases g <;> cases o <;> cases nu <;> cases m <;>
    simp [rowReasons]

theorem mem_rowReasons_exus (d e g o nu m : Bool) :
    ("ExUS Author" ∈ rowReasons d e g o nu m ↔ e = true) := by
  cases d <;> cases e <;> cases g <;> cases o <;> cases nu <;> cases m <;>
    simp [rowReasons]

theorem mem_rowReasons_rg (d e g o nu m : Bool) :
    ("REMOVE Group" ∈ rowReasons d e g o nu m ↔ g = true) := by
  cases d <;> cases e <;> cases g <;> cases o <;> cases nu <;> cases m <;>
    simp [rowReasons]

theorem mem_rowReasons_ro (d e g o nu m : Bool) :
    ("REMOVE Outlet" ∈ rowReasons d e g o nu m ↔ o = true) := by
  cases d <;> cases e <;> cases g <;> cases o <;> cases nu <;> cases m <;>
    simp [rowReasons]

theorem mem_rowReasons_msn (d e g o nu m : Bool) :
    ("MSN Non-US" ∈ rowReasons d e g o nu m ↔ m = true) := by
  cases d <;> cases e <;> cases g <;> cases o <;> cases nu <;> cases m <;>
    simp [rowReasons]

theorem rowReasons_subseq (d e g o nu m : Bool) :
    isSubseqL (rowReasons d e g o nu m) reasonOrder = true := by
  cases d <;> cases e <;> cases g <;> cases o <;> cases nu <;> cases m <;>
    decide

theorem rowReasons_ne_nil_iff (d e g o nu m : Bool) :
    (rowReasons d e g o nu m ≠ [] ↔ (d || e || g || o || nu || m) = true) := by
  cases d <;> cases e <;> cases g <;> cases o <;> cases nu <;> cases m <;>
    simp [rowReasons]

theorem rowReasons_msn_excl (d e g o nu m : Bool) :
    ¬("MSN Non-US" ∈ rowReasons d e g o nu m ∧
      "Non-US URL" ∈ rowReasons d e g o nu m) := by
  cases d <;> cases e <;> cases g <;> cases o <;> cases nu <;> cases m <;>
    simp [rowReasons]

/- ### Claim C4 -/

/-- C4, counterexample: the claim ties the keep-unchanged rule to the URL's
HOST containing the aggregator marker.  The code tests the WHOLE URL string:
for `https://example.com/a?from=msn.com` the host `example.com` does not
contain the marker, and the network oracle resolves to a different final
URL, yet `resolve_url` returns the input unchanged without consulting the
network. -/
theorem C4_counterexample :
    urlparseNetlocPath "https://example.com/a?from=msn.com" =
      some ("example.com", "/a") ∧
    containsSub (lowerS "example.com") "msn.com" = false ∧
    resolve_url (fun _ => some "https://resolved.example/final")
        (some "https://example.com/a?from=msn.com") =
      "https://example.com/a?from=msn.com" ∧
    "https://example.com/a?from=msn.com" ≠ "https://resolved.example/final" := by
  decide

/-- C4 (amended): `resolve(raw_url)` returns the empty string when the input
is null or empty (independently of the network oracle, i.e. with no network
call); returns the input unchanged when the URL STRING contains the
aggregator marker `msn.com` (case-insensitive substring match anywhere in
the URL, not only in the host); and otherwise returns the redirect-followed
final URL, falling back to the original input on any network failure. -/
theorem C4_resolve_url (net : String → Option String) (u finalUrl : String) :
    resolve_url net none = "" ∧
    resolve_url net (some "") = "" ∧
    (u ≠ "" → containsSub (lowerS u) "msn.com" = true →
      resolve_url net (some u) = u) ∧
    (u ≠ "" → containsSub (lowerS u) "msn.com" = false →
      net u = some finalUrl → resolve_url net (some u) = finalUrl) ∧
    (u ≠ "" → containsSub (lowerS u) "msn.com" = false →
      net u = none → resolve_url net (some u) = u) := by
  refine ⟨rfl, rfl, ?_, ?_, ?_⟩
  · intro hu hm
    simp [resolve_url, hu, hm]
  · intro hu hm hn
    simp [resolve_url, hu, hm, hn]
  · intro hu hm hn
    simp [resolve_url, hu, hm, hn]

/-- Witness for C4: a successful resolution through the network oracle. -/
theorem C4_witness :
    resolve_url (fun _ => some "https://final.example/x")
      (some "https://t.co/abc") = "https://final.example/x" :=
  (C4_resolve_url (fun _ => some "https://final.example/x")
    "https://t.co/abc" "https://final.example/x").2.2.2.1
    (by decide) (by decide) rfl

/- ### Claim C9 -/

/-- C9: the locale classifier fails open — a parse failure (modelled by the
`none` result of the urlparse model, i.e. the `except` branch of the source)
and the empty input both yield `false` (not non-US); classification failure
never excludes a row. -/
theorem C9_classifier_fails_open (u : String)
    (hu : urlparseNetlocPath u = none) :
    mark_non_us_url u = false ∧ mark_non_us_url "" = false := by
  refine ⟨?_, by decide⟩
  unfold mark_non_us_url
  by_cases h : u = ""
  · simp [h]
  · simp [h, hu]

/-- Witness for C9: a malformed URL (unmatched bracket netloc, the
`Invalid IPv6 URL` ValueError of urlparse) is not flagged. -/
theorem C9_witness :
    mark_non_us_url "http://[::1/x" = false ∧ mark_non_us_url "" = false :=
  C9_classifier_fails_open "http://[::1/x" (by decide)

/- ### Claim C6 -/

/-- C6: if any subdomain segment of the resolved URL's host exactly matches
one of the fixed non-US tokens, the classifier returns non-US, regardless of
the allow-list; in particular `https://uk.example.com/story` is non-US. -/
theorem C6_subdomain_token_rule (u netloc path t : String)
    (hp : urlparseNetlocPath u = some (netloc, path))
    (ht : t ∈ (base_domain_and_subtokens netloc).2)
    (htok : t ∈ NON_US_SUBDOMAIN_TOKENS) :
    mark_non_us_url u = true ∧
    mark_non_us_url "https://uk.example.com/story" = true := by
  refine ⟨?_, by decide⟩
  have hu : u ≠ "" := by
    rintro rfl
    have h0 : urlparseNetlocPath "" = some ("", "") := by decide
    rw [h0] at hp
    have hpair : ("", "") = ((netloc, path) : String × String) :=
      Option.some.inj hp
    have hn : netloc = "" := (congrArg Prod.fst hpair).symm
    rw [hn] at ht
    have h2 : (base_domain_and_subtokens "").2 = [] := by decide
    rw [h2] at ht
    exact absurd ht (List.not_mem_nil t)
  unfold mark_non_us_url
  simp [hu, hp]
  exact Or.inl ⟨t, ht, htok⟩

/-- Witness for C6 at `https://uk.example.com/story`. -/
theorem C6_witness :
    mark_non_us_url "https://uk.example.com/story" = true ∧
    mark_non_us_url "https://uk.example.com/story" = true :=
  C6_subdomain_token_rule "https://uk.example.com/story" "uk.example.com"
    "/story" "uk" (by decide) (by decide) (by decide)

/- ### Claim C5 -/

/-- C5, counterexample: `https://uk.techradar.com/en-us/news` has its
registrable base domain `techradar.com` in the path-locale allow-list and
its first path segment `en-us` is a US-designating token, so the claim says
it is classified US; but the subdomain rule fires first on the `uk` token
and the code classifies it non-US. -/
theorem C5_counterexample :
    (base_domain_and_subtokens "uk.techradar.com").1 ∈
      PATH_LOCALE_ALLOWED_DOMAINS ∧
    urlparseNetlocPath "https://uk.techradar.com/en-us/news" =
      some ("uk.techradar.com", "/en-us/news") ∧
    first_path_segment "/en-us/news" = "en-us" ∧
    lang_region_match "en-us" = true ∧
    "en-us" ∈ usPathExemptTokens ∧
    mark_non_us_url "https://uk.techradar.com/en-us/news" = true := by
  decide

/-- C5 (amended): for a resolved URL whose registrable base domain is in the
path-locale allow-list AND none of whose subdomain segments matches a non-US
token, if the first non-empty path segment matches a region token or the
language-region pattern then the URL is classified non-US exactly when the
segment is NOT an explicit US variant (ends in "us" or is a US-designating
token); a URL with a matching subdomain token is classified non-US by the
subdomain rule regardless of the path exemption.  In particular
`https://techradar.com/us/story` is not classified non-US while
`https://techradar.com/uk/story` is. -/
theorem C5_path_locale_rule (u netloc path : String)
    (hp : urlparseNetlocPath u = some (netloc, path))
    (hbase : (base_domain_and_subtokens netloc).1 ∈ PATH_LOCALE_ALLOWED_DOMAINS)
    (hsub : ∀ t ∈ (base_domain_and_subtokens netloc).2,
      t ∉ NON_US_SUBDOMAIN_TOKENS)
    (hseg : first_path_segment path ∈ PATH_LOCALE_TOKENS ∨
            lang_region_match (first_path_segment path) = true) :
    (mark_non_us_url u = false ↔
      (endsWithS (first_path_segment path) "us" = true ∨
       first_path_segment path ∈ usPathExemptTokens)) ∧
    mark_non_us_url "https://techradar.com/us/story" = false ∧
    mark_non_us_url "https://techradar.com/uk/story" = true := by
  refine ⟨?_, by decide, by decide⟩
  have hu : u ≠ "" := by
    rintro rfl
    have h0 : urlparseNetlocPath "" = some ("", "") := by decide
    rw [h0] at hp
    have hpair : ("", "") = ((netloc, path) : String × String) :=
      Option.some.inj hp
    have hn : netloc = "" := (congrArg Prod.fst hpair).symm
    rw [hn] at hbase
    exact absurd hbase (by decide)
  have hA : (base_domain_and_subtokens netloc).2.any
      (fun tok => NON_US_SUBDOMAIN_TOKENS.contains tok) = false := by
    rw [List.any_eq_false]
    intro t htm
    have := hsub t htm
    simp [List.contains, List.elem_iff]
    exact this
  have hB : PATH_LOCALE_ALLOWED_DOMAINS.contains
      (base_domain_and_subtokens netloc).1 = true :=
    List.elem_iff.mpr hbase
  have hC : (PATH_LOCALE_TOKENS.contains (first_path_segment path) ||
      lang_region_match (first_path_segment path)) = true := by
    rw [Bool.or_eq_true]
    cases hseg with
    | inl h => exact Or.inl (List.elem_iff.mpr h)
    | inr h => exact Or.inr h
  unfold mark_non_us_url
  simp only [hu, if_neg, hp]
  cases hE : (endsWithS (first_path_segment path) "us" ||
      usPathExemptTokens.contains (first_path_segment path)) with
  | true =>
    simp only [hA, hB, hC, hE]
    simp only [Bool.or_eq_true] at hE
    constructor
    · intro _
      cases hE with
      | inl h => exact Or.inl h
      | inr h => exact Or.inr (List.elem_iff.mp h)
    · intro _
      simp
  | false =>
    simp only [hA, hB, hC, hE]
    simp only [Bool.or_eq_false_iff] at hE
    constructor
    · intro h
      simp at h
    · intro h
      cases h with
      | inl h => rw [h] at hE; exact absurd hE.1 (by simp)
      | inr h =>
        have : usPathExemptTokens.contains (first_path_segment path) = true :=
          List.elem_iff.mpr h
        rw [this] at hE
        exact absurd hE.2 (by simp)

/-- Witness for C5 at `https://techradar.com/uk/story`: the allow-listed
base domain with no subdomain tokens and region-token first segment. -/
theorem C5_witness :
    (mark_non_us_url "https://techradar.com/uk/story" = false ↔
      (endsWithS (first_path_segment "/uk/story") "us" = true ∨
       first_path_segment "/uk/story" ∈ usPathExemptTokens)) ∧
    mark_non_us_url "https://techradar.com/us/story" = false ∧
    mark_non_us_url "https://techradar.com/uk/story" = true :=
  C5_path_locale_rule "https://techradar.com/uk/story" "techradar.com"
    "/uk/story" (by decide) (by decide) (by decide) (Or.inl (by decide))

/- ### Projection lemmas for the flag engine -/

theorem mkOutRow_reasons (exKeys : List String) (p : ProcRow) (d : Bool) :
    (mkOutRow exKeys p d).reasons =
      rowReasons (d && !(lowerS p.resolved == ""))
        (exKeys.contains (exusKey p.pub p.journalist))
        (upperS p.group == "REMOVE") (upperS p.outlet == "REMOVE")
        p.nonus
        (msnRegexContains p.resolved &&
          !(match msn_locale (stripSchemeHost (lowerS p.resolved)) with
            | some loc => usMsnLocales.contains loc
            | none => false)) := rfl

theorem mkOutRow_flag (exKeys : List String) (p : ProcRow) (d : Bool) :
    (mkOutRow exKeys p d).flag =
      (if (d && !(lowerS p.resolved == "")) ||
          exKeys.contains (exusKey p.pub p.journalist) ||
          (upperS p.group == "REMOVE") || (upperS p.outlet == "REMOVE") ||
          p.nonus ||
          (msnRegexContains p.resolved &&
            !(match msn_locale (stripSchemeHost (lowerS p.resolved)) with
              | some loc => usMsnLocales.contains loc
              | none => false))
       then "R" else "") := rfl

theorem mkOutRow_exus (exKeys : List String) (p : ProcRow) (d : Bool) :
    (mkOutRow exKeys p d).exus =
      (if exKeys.contains (exusKey p.pub p.journalist) then "Yes" else "") := rfl

theorem mkOutRow_resolved (exKeys : List String) (p : ProcRow) (d : Bool) :
    (mkOutRow exKeys p d).resolved = p.resolved := rfl

theorem mkOutRow_journalist (exKeys : List String) (p : ProcRow) (d : Bool) :
    (mkOutRow exKeys p d).journalist = p.journalist := rfl

theorem mkOutRow_pub (exKeys : List String) (p : ProcRow) (d : Bool) :
    (mkOutRow exKeys p d).pub = p.pub := rfl

theorem mkOutRow_group (exKeys : List String) (p : ProcRow) (d : Bool) :
    (mkOutRow exKeys p d).group = p.group := rfl

theorem mkOutRow_outlet (exKeys : List String) (p : ProcRow) (d : Bool) :
    (mkOutRow exKeys p d).outlet = p.outlet := rfl

theorem mkOutRow_rReason (exKeys : List String) (p : ProcRow) (d : Bool) :
    (mkOutRow exKeys p d).rReason =
      String.intercalate "; " (mkOutRow exKeys p d).reasons := rfl

theorem mem_flagRows {exKeys : List String} {ps : List ProcRow}
    {ds : List Bool} {r : OutRow} (h : r ∈ flagRows exKeys ps ds) :
    ∃ p d, p ∈ ps ∧ r = mkOutRow exKeys p d := by
  induction ps generalizing ds with
  | nil => cases ds <;> simp [flagRows] at h
  | cons p ps ih =>
    cases ds with
    | nil => simp [flagRows] at h
    | cons d ds =>
      rcases List.mem_cons.mp h with h1 | h2
      · exact ⟨p, d, by simp, h1⟩
      · obtain ⟨p2, d2, hp2, hr2⟩ := ih h2
        exact ⟨p2, d2, by simp [hp2], hr2⟩

theorem lt_resolvedLowersOf_length (net : String → Option String)
    (scrape : String → String) (orefs : List OutletRef) (rows : List InRow)
    {i : Nat} (hi : i < rows.length) :
    i < (resolvedLowersOf net scrape orefs rows).length := by
  rw [resolvedLowersOf_length]; exact hi

theorem resolvedLowersOf_get (net : String → Option String)
    (scrape : String → String) (orefs : List OutletRef) (rows : List InRow)
    (k : Nat) (h1 : k < (resolvedLowersOf net scrape orefs rows).length)
    (h2 : k < (procsOf net scrape orefs rows).length) :
    (resolvedLowersOf net scrape orefs rows).get ⟨k, h1⟩ =
      lowerS (((procsOf net scrape orefs rows).get ⟨k, h2⟩).resolved) := by
  simp [resolvedLowersOf]

theorem runPipeline_resolved_get (net : String → Option String)
    (scrape : String → String) (orefs : List OutletRef)
    (jrefs : List JournalistRef) (rows : List InRow) (k : Nat)
    (h1 : k < (runPipeline net scrape orefs jrefs rows).length)
    (h2 : k < (procsOf net scrape orefs rows).length) :
    ((runPipeline net scrape orefs jrefs rows).get ⟨k, h1⟩).resolved =
      ((procsOf net scrape orefs rows).get ⟨k, h2⟩).resolved := by
  have hk : k < rows.length := by
    rw [← runPipeline_length net scrape orefs jrefs rows]; exact h1
  exact congrArg OutRow.resolved
    (runPipeline_get net scrape orefs jrefs rows k hk)

/- ### Claim C1 -/

/-- C1: for every processed row, the suppression flag equals `R` exactly when
the reason list is non-empty; the rendered `R Reason` string is the reason
list joined by `"; "`; the reason list is a subsequence of the fixed order
Duplicate URL, ExUS Author, REMOVE Group, REMOVE Outlet, MSN Non-US,
Non-US URL; and the generic Non-US label never coexists with the
MSN-specific one. -/
theorem C1_flag_reason_engine (net : String → Option String)
    (scrape : String → String) (orefs : List OutletRef)
    (jrefs : List JournalistRef) (rows : List InRow) :
    ∀ r ∈ runPipeline net scrape orefs jrefs rows,
      (r.flag = "R" ↔ r.reasons ≠ []) ∧
      r.rReason = String.intercalate "; " r.reasons ∧
      isSubseqL r.reasons reasonOrder = true ∧
      ¬("MSN Non-US" ∈ r.reasons ∧ "Non-US URL" ∈ r.reasons) := by
  intro r hr
  obtain ⟨p, d, hpmem, rfl⟩ := mem_flagRows hr
  refine ⟨?_, mkOutRow_rReason _ _ _, ?_, ?_⟩
  · rw [mkOutRow_flag, mkOutRow_reasons, rowReasons_ne_nil_iff]
    constructor
    · intro hR
      by_contra hC
      rw [if_neg hC] at hR
      exact absurd hR (by decide)
    · intro hcond
      rw [if_pos hcond]
  · rw [mkOutRow_reasons]
    exact rowReasons_subseq _ _ _ _ _ _
  · rw [mkOutRow_reasons]
    exact rowReasons_msn_excl _ _ _ _ _ _

/- ### Claim C2 -/

/-- C2: on the concatenated batch (first dataset's rows, then second
dataset's rows), a row carries the reason "Duplicate URL" exactly when its
resolved URL is non-empty (compared lowercased) and some strictly earlier
row has the same lowercased resolved URL; in particular first occurrences
and rows with empty resolved URLs are never flagged as duplicates. -/
theorem C2_duplicate_url (net : String → Option String)
    (scrape : String → String) (orefs : List OutletRef)
    (jrefs : List JournalistRef) (rowsA rowsB : List InRow) (i : Nat)
    (hi : i < (rowsA ++ rowsB).length) :
    ("Duplicate URL" ∈
        ((runPipeline net scrape orefs jrefs (rowsA ++ rowsB)).get
          ⟨i, lt_runPipeline_length net scrape orefs jrefs (rowsA ++ rowsB)
            hi⟩).reasons
      ↔
      (lowerS (((runPipeline net scrape orefs jrefs (rowsA ++ rowsB)).get
          ⟨i, lt_runPipeline_length net scrape orefs jrefs (rowsA ++ rowsB)
            hi⟩).resolved) ≠ "" ∧
       ∃ j, ∃ hj : j < i,
         lowerS (((runPipeline net scrape orefs jrefs (rowsA ++ rowsB)).get
           ⟨j, lt_runPipeline_length net scrape orefs jrefs (rowsA ++ rowsB)
             (Nat.lt_trans hj hi)⟩).resolved) =
         lowerS (((runPipeline net scrape orefs jrefs (rowsA ++ rowsB)).get
           ⟨i, lt_runPipeline_length net scrape orefs jrefs (rowsA ++ rowsB)
             hi⟩).resolved))) := by
  set rows := rowsA ++ rowsB with hrows
  have hiR : i < (runPipeline net scrape orefs jrefs rows).length :=
    lt_runPipeline_length net scrape orefs jrefs rows hi
  have hiP : i < (procsOf net scrape orefs rows).length :=
    lt_procsOf_length net scrape orefs rows hi
  have hiD : i < (dupsOf net scrape orefs rows).length :=
    lt_dupsOf_length net scrape orefs rows hi
  have hiL : i < (resolvedLowersOf net scrape orefs rows).length :=
    lt_resolvedLowersOf_length net scrape orefs rows hi
  have hmem : ("Duplicate URL" ∈
      ((runPipeline net scrape orefs jrefs rows).get ⟨i, hiR⟩).reasons ↔
      ((dupsOf net scrape orefs rows).get ⟨i, hiD⟩ = true ∧
       ¬ lowerS (((procsOf net scrape orefs rows).get ⟨i, hiP⟩).resolved)
          = "")) := by
    have h2 : (runPipeline net scrape orefs jrefs rows).get ⟨i, hiR⟩ =
        mkOutRow (exusKeysOf jrefs)
          ((procsOf net scrape orefs rows).get ⟨i, hiP⟩)
          ((dupsOf net scrape orefs rows).get ⟨i, hiD⟩) :=
      runPipeline_get net scrape orefs jrefs rows i hi
    rw [h2, mkOutRow_reasons, mem_rowReasons_dup, Bool.and_eq_true]
    simp
  have hd2 : ((dupsOf net scrape orefs rows).get ⟨i, hiD⟩ = true ↔
      ∃ j, ∃ hj : j < i,
        lowerS (((procsOf net scrape orefs rows).get
          ⟨j, lt_procsOf_length net scrape orefs rows
            (Nat.lt_trans hj hi)⟩).resolved) =
        lowerS (((procsOf net scrape orefs rows).get ⟨i, hiP⟩).resolved)) := by
    have hdd : (dupsOf net scrape orefs rows).get ⟨i, hiD⟩ =
        ((resolvedLowersOf net scrape orefs rows).take i).contains
          ((resolvedLowersOf net scrape orefs rows).get ⟨i, hiL⟩) :=
      duplicatedKeepFirst_get (resolvedLowersOf net scrape orefs rows) i hiL hiD
    rw [hdd, contains_take_iff (resolvedLowersOf net scrape orefs rows) i hiL]
    constructor
    · rintro ⟨j, hj, hje⟩
      refine ⟨j, hj, ?_⟩
      have e1 := resolvedLowersOf_get net scrape orefs rows j
        (Nat.lt_trans hj hiL)
        (lt_procsOf_length net scrape orefs rows (Nat.lt_trans hj hi))
      have e2 := resolvedLowersOf_get net scrape orefs rows i hiL hiP
      rw [← e1, ← e2]
      exact hje
    · rintro ⟨j, hj, hje⟩
      refine ⟨j, hj, ?_⟩
      have e1 := resolvedLowersOf_get net scrape orefs rows j
        (Nat.lt_trans hj hiL)
        (lt_procsOf_length net scrape orefs rows (Nat.lt_trans hj hi))
      have e2 := resolvedLowersOf_get net scrape orefs rows i hiL hiP
      rw [e1, e2]
      exact hje
  have hproj : ∀ (k : Nat)
      (h1 : k < (runPipeline net scrape orefs jrefs rows).length)
      (h2 : k < (procsOf net scrape orefs rows).length),
      ((runPipeline net scrape orefs jrefs rows).get ⟨k, h1⟩).resolved =
      ((procsOf net scrape orefs rows).get ⟨k, h2⟩).resolved :=
    fun k h1 h2 => runPipeline_resolved_get net scrape orefs jrefs rows k h1 h2
  constructor
  · intro hL
    obtain ⟨hbit, hne⟩ := hmem.mp hL
    obtain ⟨j, hj, hje⟩ := hd2.mp hbit
    refine ⟨?_, j, hj, ?_⟩
    · rw [hproj i hiR hiP]
      exact hne
    · rw [hproj j (lt_runPipeline_length net scrape orefs jrefs rows
          (Nat.lt_trans hj hi))
        (lt_procsOf_length net scrape orefs rows (Nat.lt_trans hj hi)),
        hproj i hiR hiP]
      exact hje
  · rintro ⟨hne, j, hj, hje⟩
    refine hmem.mpr ⟨hd2.mpr ⟨j, hj, ?_⟩, ?_⟩
    · rw [hproj j (lt_runPipeline_length net scrape orefs jrefs rows
          (Nat.lt_trans hj hi))
        (lt_procsOf_length net scrape orefs rows (Nat.lt_trans hj hi)),
        hproj i hiR hiP] at hje
      exact hje
    · rw [hproj i hiR hiP] at hne
      exact hne

/-- Witness for C2: two rows with the same non-empty resolved URL, one in
each vendor batch; the second occurrence carries the Duplicate URL reason. -/
theorem C2_witness :
    "Duplicate URL" ∈
      ((runPipeline (fun _ => none) (fun _ => "") [] []
          ([InRow.mk "A" "a" (some "https://Ex.com/x")] ++
           [InRow.mk "B" "b" (some "https://ex.COM/x")])).get
        ⟨1, lt_runPipeline_length (fun _ => none) (fun _ => "") [] []
          ([InRow.mk "A" "a" (some "https://Ex.com/x")] ++
           [InRow.mk "B" "b" (some "https://ex.COM/x")]) (by decide)⟩).reasons :=
  (C2_duplicate_url (fun _ => none) (fun _ => "") [] []
    [InRow.mk "A" "a" (some "https://Ex.com/x")]
    [InRow.mk "B" "b" (some "https://ex.COM/x")] 1 (by decide)).mpr
    ⟨by decide, 0, by decide, by decide⟩

/- ### Claim C8 -/

/-- C8: when neither the MSN special case nor a Yahoo vertical substring
rule matches, outlet mapping looks up the lowercased publication name and
then the lowercased resolved URL in the reference map; the map's keys are
exactly the three lowercased reference fields with blank/"nan" excluded, a
hit returns that entry's (group, outlet) with the reference table's casing
(group from the vertical column, outlet the stripped outlet name), and no
hit yields `("", "")`. -/
theorem C8_master_map_fallback (refs : List OutletRef) (url pub : String)
    (hmsn : containsSub (lowerS (trimS url)) "msn.com" = false)
    (hy1 : containsSub (lowerS (trimS url)) "sports.yahoo" = false)
    (hy2 : containsSub (lowerS (trimS url)) "yahoo.com/entertainment" = false)
    (hy3 : containsSub (lowerS (trimS url)) "yahoo.com/lifestyle" = false)
    (hy4 : containsSub (lowerS (trimS url)) "finance.yahoo.com" = false)
    (hy5 : containsSub (lowerS (trimS url)) "yahoo.com/news" = false)
    (hy6 : containsSub (lowerS (trimS url)) "yahoo.com/tech" = false) :
    (map_group_outlet url pub (masterMapLookup refs) =
      (match masterMapLookup refs (lowerS (trimS pub)) with
       | some go => go
       | none =>
         match masterMapLookup refs (lowerS (trimS url)) with
         | some go => go
         | none => ("", ""))) ∧
    (∀ k, (masterMapLookup refs k).isSome ↔ ∃ r ∈ refs, k ∈ refKeys r) ∧
    (∀ k g o, masterMapLookup refs k = some (g, o) →
      ∃ r ∈ refs, k ∈ refKeys r ∧ g = r.vertical ∧ o = trimS r.outletName) := by
  refine ⟨?_, ?_, ?_⟩
  · simp only [map_group_outlet, hmsn, hy1, hy2, hy3, hy4, hy5, hy6]
    rfl
  · intro k
    simp only [masterMapLookup, Option.isSome_map']
    rw [List.find?_isSome]
    constructor
    · rintro ⟨e, he, hek⟩
      rw [List.mem_reverse] at he
      simp only [masterInsertions, List.mem_flatten, List.mem_map] at he
      obtain ⟨l, ⟨r, hr, rfl⟩, hel⟩ := he
      obtain ⟨k2, hk2, rfl⟩ := List.mem_map.mp hel
      have : k2 = k := by simpa using hek
      exact ⟨r, hr, this ▸ hk2⟩
    · rintro ⟨r, hr, hk⟩
      refine ⟨(k, r.vertical, trimS r.outletName), ?_, by simp⟩
      rw [List.mem_reverse]
      simp only [masterInsertions, List.mem_flatten, List.mem_map]
      exact ⟨(refKeys r).map (fun k2 => (k2, r.vertical, trimS r.outletName)),
        ⟨r, hr, rfl⟩, List.mem_map.mpr ⟨k, hk, rfl⟩⟩
  · intro k g o h
    simp only [masterMapLookup, Option.map_eq_some'] at h
    obtain ⟨e, hfind, hgo⟩ := h
    have hek := List.find?_some hfind
    have hmem := List.mem_of_find?_eq_some hfind
    rw [List.mem_reverse] at hmem
    simp only [masterInsertions, List.mem_flatten, List.mem_map] at hmem
    obtain ⟨l, ⟨r, hr, rfl⟩, hel⟩ := hmem
    obtain ⟨k2, hk2, rfl⟩ := List.mem_map.mp hel
    have hke : k2 = k := by simpa using hek
    have h2 : (r.vertical, trimS r.outletName) = (g, o) := hgo
    exact ⟨r, hr, hke ▸ hk2, (congrArg Prod.fst h2).symm,
      (congrArg Prod.snd h2).symm⟩

/-- Witness for C8: a non-MSN, non-Yahoo URL resolved through the
reference table by publication name. -/
theorem C8_witness :
    (map_group_outlet "https://theverge.com/x" "The VERGE"
        (masterMapLookup [OutletRef.mk " The Verge " "Verge"
          "https://theverge.com" "Tech"]) =
      (match masterMapLookup [OutletRef.mk " The Verge " "Verge"
          "https://theverge.com" "Tech"] (lowerS (trimS "The VERGE")) with
       | some go => go
       | none =>
         match masterMapLookup [OutletRef.mk " The Verge " "Verge"
            "https://theverge.com" "Tech"]
            (lowerS (trimS "https://theverge.com/x")) with
         | some go => go
         | none => ("", ""))) ∧
    (∀ k, (masterMapLookup [OutletRef.mk " The Verge " "Verge"
        "https://theverge.com" "Tech"] k).isSome ↔
      ∃ r ∈ [OutletRef.mk " The Verge " "Verge" "https://theverge.com" "Tech"],
        k ∈ refKeys r) ∧
    (∀ k g o, masterMapLookup [OutletRef.mk " The Verge " "Verge"
        "https://theverge.com" "Tech"] k = some (g, o) →
      ∃ r ∈ [OutletRef.mk " The Verge " "Verge" "https://theverge.com" "Tech"],
        k ∈ refKeys r ∧ g = r.vertical ∧ o = trimS r.outletName) :=
  C8_master_map_fallback
    [OutletRef.mk " The Verge " "Verge" "https://theverge.com" "Tech"]
    "https://theverge.com/x" "The VERGE" (by decide) (by decide) (by decide)
    (by decide) (by decide) (by decide) (by decide)

/- ### Character-level lemmas -/

theorem lowerChar_cases (c : Char) :
    lowerChar c = c ∨ (c ∈ upperLetters ∧ lowerChar c ∈ lowerLetters) := by
  unfold lowerChar
  by_cases h1 : c = 'A'
  · subst h1; right; exact ⟨by decide, by decide⟩
  rw [if_neg h1]
  by_cases h2 : c = 'B'
  · subst h2; right; exact ⟨by decide, by decide⟩
  rw [if_neg h2]
  by_cases h3 : c = 'C'
  · subst h3; right; exact ⟨by decide, by decide⟩
  rw [if_neg h3]
  by_cases h4 : c = 'D'
  · subst h4; right; exact ⟨by decide, by decide⟩
  rw [if_neg h4]
  by_cases h5 : c = 'E'
  · subst h5; right; exact ⟨by decide, by decide⟩
  rw [if_neg h5]
  by_cases h6 : c = 'F'
  · subst h6; right; exact ⟨by decide, by decide⟩
  rw [if_neg h6]
  by_cases h7 : c = 'G'
  · subst h7; right; exact ⟨by decide, by decide⟩
  rw [if_neg h7]
  by_cases h8 : c = 'H'
  · subst h8; right; exact ⟨by decide, by decide⟩
  rw [if_neg h8]
  by_cases h9 : c = 'I'
  · subst h9; right; exact ⟨by decide, by decide⟩
  rw [if_neg h9]
  by_cases h10 : c = 'J'
  · subst h10; right; exact ⟨by decide, by decide⟩
  rw [if_neg h10]
  by_cases h11 : c = 'K'
  · subst h11; right; exact ⟨by decide, by decide⟩
  rw [if_neg h11]
  by_cases h12 : c = 'L'
  · subst h12; right; exact ⟨by decide, by decide⟩
  rw [if_neg h12]
  by_cases h13 : c = 'M'
  · subst h13; right; exact ⟨by decide, by decide⟩
  rw [if_neg h13]
  by_cases h14 : c = 'N'
  · subst h14; right; exact ⟨by decide, by decide⟩
  rw [if_neg h14]
  by_cases h15 : c = 'O'
  · subst h15; right; exact ⟨by decide, by decide⟩
  rw [if_neg h15]
  by_cases h16 : c = 'P'
  · subst h16; right; exact ⟨by decide, by decide⟩
  rw [if_neg h16]
  by_cases h17 : c = 'Q'
  · subst h17; right; exact ⟨by decide, by decide⟩
  rw [if_neg h17]
  by_cases h18 : c = 'R'
  · subst h18; right; exact ⟨by decide, by decide⟩
  rw [if_neg h18]
  by_cases h19 : c = 'S'
  · subst h19; right; exact ⟨by decide, by decide⟩
  rw [if_neg h19]
  by_cases h20 : c = 'T'
  · subst h20; right; exact ⟨by decide, by decide⟩
  rw [if_neg h20]
  by_cases h21 : c = 'U'
  · subst h21; right; exact ⟨by decide, by decide⟩
  rw [if_neg h21]
  by_cases h22 : c = 'V'
  · subst h22; right; exact ⟨by decide, by decide⟩
  rw [if_neg h22]
  by_cases h23 : c = 'W'
  · subst h23; right; exact ⟨by decide, by decide⟩
  rw [if_neg h23]
  by_cases h24 : c = 'X'
  · subst h24; right; exact ⟨by decide, by decide⟩
  rw [if_neg h24]
  by_cases h25 : c = 'Y'
  · subst h25; right; exact ⟨by decide, by decide⟩
  rw [if_neg h25]
  by_cases h26 : c = 'Z'
  · subst h26; right; exact ⟨by decide, by decide⟩
  rw [if_neg h26]
  left
  rfl

theorem lowerChar_fixes_lower : ∀ d ∈ lowerLetters, lowerChar d = d := by decide

theorem lowerLetters_not_space : ∀ d ∈ lowerLetters, isSpaceChar d = false := by
  decide

theorem upperLetters_not_space : ∀ d ∈ upperLetters, isSpaceChar d = false := by
  decide

theorem lowerChar_idem (c : Char) : lowerChar (lowerChar c) = lowerChar c := by
  rcases lowerChar_cases c with h | ⟨_, hl⟩
  · rw [h]
    exact h
  · exact lowerChar_fixes_lower _ hl

theorem isSpaceChar_lowerChar (c : Char) :
    isSpaceChar (lowerChar c) = isSpaceChar c := by
  rcases lowerChar_cases c with h | ⟨hu, hl⟩
  · rw [h]
  · rw [lowerLetters_not_space _ hl, upperLetters_not_space _ hu]

theorem isLowerAlpha_not_space (c : Char) (h : isLowerAlpha c = true) :
    isSpaceChar c = false := by
  cases h2 : isSpaceChar c
  · rfl
  · simp only [isSpaceChar, Bool.or_eq_true, beq_iff_eq] at h2
    rcases h2 with ((((rfl | rfl) | rfl) | rfl) | rfl) | rfl <;>
      exact absurd h (by decide)

/-- Lowering commutes with stripping, character-list level. -/
theorem trimL_map_lower (l : List Char) :
    trimL (l.map lowerChar) = (trimL l).map lowerChar := by
  have hsp : (fun c => isSpaceChar (lowerChar c)) = isSpaceChar :=
    funext isSpaceChar_lowerChar
  have hdw : ∀ (m : List Char),
      (m.map lowerChar).dropWhile isSpaceChar =
        (m.dropWhile isSpaceChar).map lowerChar := by
    intro m
    rw [List.dropWhile_map]
    rw [show (isSpaceChar ∘ lowerChar) = isSpaceChar from funext isSpaceChar_lowerChar]
  unfold trimL rtrimL
  rw [hdw l, ← List.map_reverse, hdw, ← List.map_reverse]

/-- `str.strip()` and `str.lower()` commute. -/
theorem trimS_lowerS (s : String) : trimS (lowerS s) = lowerS (trimS s) :=
  congrArg String.mk (trimL_map_lower s.data)

/- ### Claim C7 -/

/-- C7: a row carries the reason "ExUS Author" exactly when the composite
key `lowercase(trim(publication)) ++ "|" ++ lowercase(trim(journalist))` is
in the exclusion set built from the reference rows whose Geo tag uppercases
to the EXUS sentinel; matching is exact: for the entry
`techcrunch|jane doe`, any casing/edge-whitespace variant of
TechCrunch/Jane Doe is flagged, while an extra internal space in the
journalist name is not. -/
theorem C7_exus_author_matcher (net : String → Option String)
    (scrape : String → String) (orefs : List OutletRef)
    (jrefs : List JournalistRef) (rows : List InRow) :
    (∀ r ∈ runPipeline net scrape orefs jrefs rows,
      ("ExUS Author" ∈ r.reasons ↔
        (lowerS (trimS r.pub) ++ "|" ++ lowerS (trimS r.journalist)) ∈
          exusKeysOf jrefs)) ∧
    (∀ pubStr jStr, lowerS (trimS pubStr) = "techcrunch" →
      lowerS (trimS jStr) = "jane doe" →
      ∀ r ∈ runPipeline net scrape []
          [JournalistRef.mk "techcrunch" "jane doe" "EXUS"]
          [InRow.mk pubStr jStr none],
        "ExUS Author" ∈ r.reasons) ∧
    (∀ jStr, lowerS (trimS jStr) = "jane  doe" →
      ∀ r ∈ runPipeline net scrape []
          [JournalistRef.mk "techcrunch" "jane doe" "EXUS"]
          [InRow.mk "TechCrunch" jStr none],
        "ExUS Author" ∉ r.reasons) := by
  have hkey : ∀ p j : String, exusKey p j =
      lowerS (trimS p) ++ "|" ++ lowerS (trimS j) := by
    intro p j
    simp only [exusKey, trimS_lowerS]
  refine ⟨?_, ?_, ?_⟩
  · intro r hr
    obtain ⟨p, d, hpmem, rfl⟩ := mem_flagRows hr
    rw [mkOutRow_reasons, mem_rowReasons_exus, mkOutRow_pub,
      mkOutRow_journalist, hkey]
    exact ⟨fun h => List.elem_iff.mp h, fun h => List.elem_iff.mpr h⟩
  · intro pubStr jStr hpub hj r hr
    have hne : trimS jStr ≠ "" := by
      intro h0
      rw [h0] at hj
      exact absurd hj (by decide)
    simp only [runPipeline, procsOf, dupsOf, resolvedLowersOf,
      duplicatedKeepFirst, dupGo, flagRows, List.map, stripPubRow,
      List.mem_singleton] at hr
    subst hr
    rw [mkOutRow_reasons, mem_rowReasons_exus]
    have hP1 : (processRow net scrape (masterMapLookup [])
        (InRow.mk (trimS pubStr) jStr none)).pub = trimS pubStr := rfl
    have hP2 : (processRow net scrape (masterMapLookup [])
        (InRow.mk (trimS pubStr) jStr none)).journalist = jStr := by
      show fill_missing_journalist scrape (resolve_url net none) jStr = jStr
      simp [fill_missing_journalist, hne]
    rw [hP1, hP2]
    simp only [exusKey]
    rw [hpub, trimS_lowerS, hj]
    decide
  · intro jStr hj r hr
    have hne : trimS jStr ≠ "" := by
      intro h0
      rw [h0] at hj
      exact absurd hj (by decide)
    simp only [runPipeline, procsOf, dupsOf, resolvedLowersOf,
      duplicatedKeepFirst, dupGo, flagRows, List.map, stripPubRow,
      List.mem_singleton] at hr
    subst hr
    rw [mkOutRow_reasons, mem_rowReasons_exus]
    have hP1 : (processRow net scrape (masterMapLookup [])
        (InRow.mk (trimS "TechCrunch") jStr none)).pub =
        trimS "TechCrunch" := rfl
    have hP2 : (processRow net scrape (masterMapLookup [])
        (InRow.mk (trimS "TechCrunch") jStr none)).journalist = jStr := by
      show fill_missing_journalist scrape (resolve_url net none) jStr = jStr
      simp [fill_missing_journalist, hne]
    rw [hP1, hP2]
    simp only [exusKey]
    rw [trimS_lowerS, trimS_lowerS, hj]
    decide

/-- Witness for C7: publication in odd casing with edge whitespace and
journalist in odd casing are flagged against the `techcrunch|jane doe`
entry. -/
theorem C7_witness :
    ∀ r ∈ runPipeline (fun _ => none) (fun _ => "") []
        [JournalistRef.mk "techcrunch" "jane doe" "EXUS"]
        [InRow.mk "  TECHCRUNCH " " Jane DOE  " none],
      "ExUS Author" ∈ r.reasons :=
  (C7_exus_author_matcher (fun _ => none) (fun _ => "") [] [] []).2.1
    "  TECHCRUNCH " " Jane DOE  " (by decide) (by decide)

/- ### Claim C10 -/

/-- C10: the ExUS determination the flag engine consumes is computed on the
post-backfill journalist value: the output row's journalist is exactly the
backfilled one, the final ExUS column is `Yes` precisely when the composite
key of the (stripped) publication and that backfilled journalist is in the
exclusion set, the "ExUS Author" reason coincides with that column, and a
row whose journalist was blank in the input but was filled by scraping is
flagged. -/
theorem C10_exus_after_backfill (net : String → Option String)
    (scrape : String → String) (orefs : List OutletRef)
    (jrefs : List JournalistRef) (rows : List InRow) (i : Nat)
    (hi : i < rows.length) :
    (((runPipeline net scrape orefs jrefs rows).get
        ⟨i, lt_runPipeline_length net scrape orefs jrefs rows hi⟩).journalist =
      fill_missing_journalist scrape
        (resolve_url net ((rows.get ⟨i, hi⟩).permalink))
        ((rows.get ⟨i, hi⟩).journalist)) ∧
    (((runPipeline net scrape orefs jrefs rows).get
        ⟨i, lt_runPipeline_length net scrape orefs jrefs rows hi⟩).exus = "Yes"
      ↔ exusKey (trimS ((rows.get ⟨i, hi⟩).pub))
          (((runPipeline net scrape orefs jrefs rows).get
            ⟨i, lt_runPipeline_length net scrape orefs jrefs rows
              hi⟩).journalist) ∈ exusKeysOf jrefs) ∧
    ("ExUS Author" ∈ ((runPipeline net scrape orefs jrefs rows).get
        ⟨i, lt_runPipeline_length net scrape orefs jrefs rows hi⟩).reasons ↔
      ((runPipeline net scrape orefs jrefs rows).get
        ⟨i, lt_runPipeline_length net scrape orefs jrefs rows hi⟩).exus
          = "Yes") ∧
    (∀ r ∈ runPipeline (fun _ => none) (fun _ => "Jane Doe") []
        [JournalistRef.mk "Forbes" "Jane Doe" "EXUS"]
        [InRow.mk "Forbes" "" (some "https://forbes.com/sites/x")],
      r.journalist = "Jane Doe" ∧ "ExUS Author" ∈ r.reasons ∧
        r.flag = "R") := by
  have h2 : (runPipeline net scrape orefs jrefs rows).get
      ⟨i, lt_runPipeline_length net scrape orefs jrefs rows hi⟩ =
      mkOutRow (exusKeysOf jrefs)
        ((procsOf net scrape orefs rows).get
          ⟨i, lt_procsOf_length net scrape orefs rows hi⟩)
        ((dupsOf net scrape orefs rows).get
          ⟨i, lt_dupsOf_length net scrape orefs rows hi⟩) :=
    runPipeline_get net scrape orefs jrefs rows i hi
  have hp : (procsOf net scrape orefs rows).get
      ⟨i, lt_procsOf_length net scrape orefs rows hi⟩ =
      processRow net scrape (masterMapLookup orefs)
        (stripPubRow (rows.get ⟨i, hi⟩)) :=
    procsOf_get net scrape orefs rows i hi _
  refine ⟨?_, ?_, ?_, by decide⟩
  · rw [h2, mkOutRow_journalist, hp]
    rfl
  · rw [h2, mkOutRow_exus, mkOutRow_journalist, hp]
    have hpub : (processRow net scrape (masterMapLookup orefs)
        (stripPubRow (rows.get ⟨i, hi⟩))).pub =
        trimS ((rows.get ⟨i, hi⟩).pub) := rfl
    constructor
    · intro hYes
      by_cases hc : (exusKeysOf jrefs).contains
          (exusKey (processRow net scrape (masterMapLookup orefs)
            (stripPubRow (rows.get ⟨i, hi⟩))).pub
            (processRow net scrape (masterMapLookup orefs)
              (stripPubRow (rows.get ⟨i, hi⟩))).journalist)
      · have := List.elem_iff.mp hc
        rw [hpub] at this
        exact this
      · rw [if_neg hc] at hYes
        exact absurd hYes (by decide)
    · intro hmemk
      rw [if_pos ?_]
      rw [show (exusKey (processRow net scrape (masterMapLookup orefs)
        (stripPubRow (rows.get ⟨i, hi⟩))).pub
        (processRow net scrape (masterMapLookup orefs)
          (stripPubRow (rows.get ⟨i, hi⟩))).journalist) =
        (exusKey (trimS ((rows.get ⟨i, hi⟩).pub))
          (processRow net scrape (masterMapLookup orefs)
            (stripPubRow (rows.get ⟨i, hi⟩))).journalist) from rfl]
      exact List.elem_iff.mpr hmemk
  · rw [h2, mkOutRow_reasons, mkOutRow_exus, mem_rowReasons_exus]
    by_cases hc : (exusKeysOf jrefs).contains
        (exusKey ((procsOf net scrape orefs rows).get
          ⟨i, lt_procsOf_length net scrape orefs rows hi⟩).pub
          ((procsOf net scrape orefs rows).get
            ⟨i, lt_procsOf_length net scrape orefs rows hi⟩).journalist)
    · rw [hc]
      simp
    · rw [if_neg hc]
      constructor
      · intro h
        exact absurd h hc
      · intro h
        exact absurd h (by decide)

/-- Witness for C10 at a one-row batch whose blank journalist is filled by
the scraper and then flagged as an excluded-region author. -/
theorem C10_witness :
    (((runPipeline (fun _ => none) (fun _ => "Jane Doe") []
        [JournalistRef.mk "Forbes" "Jane Doe" "EXUS"]
        [InRow.mk "Forbes" "" (some "https://forbes.com/sites/x")]).get
          ⟨0, lt_runPipeline_length (fun _ => none) (fun _ => "Jane Doe") []
            [JournalistRef.mk "Forbes" "Jane Doe" "EXUS"]
            [InRow.mk "Forbes" "" (some "https://forbes.com/sites/x")]
            (by decide)⟩).journalist =
      fill_missing_journalist (fun _ => "Jane Doe")
        (resolve_url (fun _ => none)
          (([InRow.mk "Forbes" "" (some "https://forbes.com/sites/x")].get
            ⟨0, by decide⟩).permalink))
        (([InRow.mk "Forbes" "" (some "https://forbes.com/sites/x")].get
          ⟨0, by decide⟩).journalist)) ∧
    (((runPipeline (fun _ => none) (fun _ => "Jane Doe") []
        [JournalistRef.mk "Forbes" "Jane Doe" "EXUS"]
        [InRow.mk "Forbes" "" (some "https://forbes.com/sites/x")]).get
          ⟨0, lt_runPipeline_length (fun _ => none) (fun _ => "Jane Doe") []
            [JournalistRef.mk "Forbes" "Jane Doe" "EXUS"]
            [InRow.mk "Forbes" "" (some "https://forbes.com/sites/x")]
            (by decide)⟩).exus = "Yes"
      ↔ exusKey (trimS (([InRow.mk "Forbes" ""
            (some "https://forbes.com/sites/x")].get ⟨0, by decide⟩).pub))
          (((runPipeline (fun _ => none) (fun _ => "Jane Doe") []
            [JournalistRef.mk "Forbes" "Jane Doe" "EXUS"]
            [InRow.mk "Forbes" "" (some "https://forbes.com/sites/x")]).get
              ⟨0, lt_runPipeline_length (fun _ => none) (fun _ => "Jane Doe")
                [] [JournalistRef.mk "Forbes" "Jane Doe" "EXUS"]
                [InRow.mk "Forbes" "" (some "https://forbes.com/sites/x")]
                (by decide)⟩).journalist) ∈
          exusKeysOf [JournalistRef.mk "Forbes" "Jane Doe" "EXUS"]) ∧
    ("ExUS Author" ∈ ((runPipeline (fun _ => none) (fun _ => "Jane Doe") []
        [JournalistRef.mk "Forbes" "Jane Doe" "EXUS"]
        [InRow.mk "Forbes" "" (some "https://forbes.com/sites/x")]).get
          ⟨0, lt_runPipeline_length (fun _ => none) (fun _ => "Jane Doe") []
            [JournalistRef.mk "Forbes" "Jane Doe" "EXUS"]
            [InRow.mk "Forbes" "" (some "https://forbes.com/sites/x")]
            (by decide)⟩).reasons ↔
      ((runPipeline (fun _ => none) (fun _ => "Jane Doe") []
        [JournalistRef.mk "Forbes" "Jane Doe" "EXUS"]
        [InRow.mk "Forbes" "" (some "https://forbes.com/sites/x")]).get
          ⟨0, lt_runPipeline_length (fun _ => none) (fun _ => "Jane Doe") []
            [JournalistRef.mk "Forbes" "Jane Doe" "EXUS"]
            [InRow.mk "Forbes" "" (some "https://forbes.com/sites/x")]
            (by decide)⟩).exus = "Yes") ∧
    (∀ r ∈ runPipeline (fun _ => none) (fun _ => "Jane Doe") []
        [JournalistRef.mk "Forbes" "Jane Doe" "EXUS"]
        [InRow.mk "Forbes" "" (some "https://forbes.com/sites/x")],
      r.journalist = "Jane Doe" ∧ "ExUS Author" ∈ r.reasons ∧
        r.flag = "R") :=
  C10_exus_after_backfill (fun _ => none) (fun _ => "Jane Doe") []
    [JournalistRef.mk "Forbes" "Jane Doe" "EXUS"]
    [InRow.mk "Forbes" "" (some "https://forbes.com/sites/x")] 0 (by decide)

/- ### String-bridge lemmas for the MSN locale computation

`map_group_outlet` computes the MSN locale on the stripped-then-lowercased
URL, while the flag engine's `msn_non_us_mask` computes it on the merely
lowercased `Resolved_Permalink`.  The lemmas below show that when the
stripped computation yields a kept locale, so does the unstripped one run
through `trim` — which is what connects the REMOVE mapping to the
"MSN Non-US" reason. -/

theorem tw_app (p : Char → Bool) (A : List Char) (c : Char) (R : List Char)
    (hA : ∀ x ∈ A, p x = true) (hc : p c = false) :
    (A ++ c :: R).takeWhile p = A ∧ (A ++ c :: R).dropWhile p = c :: R := by
  induction A with
  | nil => simp [List.takeWhile_cons, List.dropWhile_cons, hc]
  | cons a A ih =>
    have hpa : p a = true := hA a (by simp)
    have ih2 := ih (fun x hx => hA x (by simp [hx]))
    simp [List.takeWhile_cons, List.dropWhile_cons, hpa, ih2.1, ih2.2]

theorem dropWhile_head_false (p : Char → Bool) (m : List Char) (c : Char)
    (R : List Char) (h : m.dropWhile p = c :: R) : p c = false := by
  induction m with
  | nil => simp at h
  | cons a as ih =>
    rw [List.dropWhile_cons] at h
    cases hpa : p a
    · rw [hpa] at h
      simp only [Bool.false_eq_true, if_false] at h
      cases h
      exact hpa
    · rw [hpa] at h
      simp only [if_true] at h
      exact ih h

theorem rtrimL_append_cons (X Y : List Char) (c : Char)
    (hc : isSpaceChar c = false) :
    rtrimL (X ++ c :: Y) = X ++ c :: rtrimL Y := by
  unfold rtrimL
  rw [List.reverse_append, List.reverse_cons, List.append_assoc,
    List.dropWhile_append]
  by_cases hD : (Y.reverse.dropWhile isSpaceChar).isEmpty
  · rw [if_pos hD, List.singleton_append,
      List.dropWhile_cons_of_neg (by simp [hc])]
    rw [List.reverse_cons, List.reverse_reverse]
    rw [List.isEmpty_iff.mp hD]
    simp
  · rw [if_neg hD, List.singleton_append]
    rw [List.reverse_append, List.reverse_cons, List.reverse_reverse]
    simp [List.append_assoc]

theorem trimL_infix (l : List Char) :
    ∃ l1 l2, l = l1 ++ (trimL l ++ l2) := by
  refine ⟨l.takeWhile isSpaceChar,
    ((l.dropWhile isSpaceChar).reverse.takeWhile isSpaceChar).reverse, ?_⟩
  have h1 : l = l.takeWhile isSpaceChar ++ l.dropWhile isSpaceChar :=
    (List.takeWhile_append_dropWhile _ _).symm
  have h2 : (l.dropWhile isSpaceChar).reverse =
      (l.dropWhile isSpaceChar).reverse.takeWhile isSpaceChar ++
      (l.dropWhile isSpaceChar).reverse.dropWhile isSpaceChar :=
    (List.takeWhile_append_dropWhile _ _).symm
  have h3 : l.dropWhile isSpaceChar =
      trimL l ++
      ((l.dropWhile isSpaceChar).reverse.takeWhile isSpaceChar).reverse := by
    have h4 := congrArg List.reverse h2
    rw [List.reverse_reverse, List.reverse_append] at h4
    exact h4
  calc l = l.takeWhile isSpaceChar ++ l.dropWhile isSpaceChar := h1
  _ = l.takeWhile isSpaceChar ++ (trimL l ++
      ((l.dropWhile isSpaceChar).reverse.takeWhile isSpaceChar).reverse) := by
    rw [← h3]

theorem trimL_subset (l : List Char) : ∀ c ∈ trimL l, c ∈ l := by
  intro c hc
  unfold trimL rtrimL at hc
  rw [List.mem_reverse] at hc
  have hc2 := List.dropWhile_subset _ hc
  rw [List.mem_reverse] at hc2
  exact List.dropWhile_subset _ hc2

theorem stripSchemeHostL_cases (l : List Char) :
    stripSchemeHostL l = l ∨
    ∃ a A host tail, l = (a :: A) ++ ':' :: '/' :: '/' :: (host ++ tail) ∧
      (∀ x ∈ a :: A, isLowerAlpha x = true) ∧ host ≠ [] ∧
      (∀ x ∈ host, (!(x == '/')) = true) ∧
      stripSchemeHostL l = tail ∧ (tail = [] ∨ ∃ T, tail = '/' :: T) := by
  unfold stripSchemeHostL
  split
  · rename_i hd tl rest2 hTW hDW
    split
    · left
      rfl
    · rename_i hh0 ht0 hTW2
      right
      have hrest : rest2 =
          (hh0 :: ht0) ++ rest2.dropWhile (fun c => !(c == '/')) := by
        conv_lhs => rw [← List.takeWhile_append_dropWhile
          (fun c => !(c == '/')) rest2]
        rw [hTW2]
      have hl : l = (hd :: tl) ++ ':' :: '/' :: '/' ::
          ((hh0 :: ht0) ++ rest2.dropWhile (fun c => !(c == '/'))) := by
        conv_lhs => rw [← List.takeWhile_append_dropWhile isLowerAlpha l]
        rw [hTW, hDW]
        rw [← hrest]
      refine ⟨hd, tl, hh0 :: ht0, rest2.dropWhile (fun c => !(c == '/')),
        hl, ?_, by simp, ?_, rfl, ?_⟩
      · intro x hx
        rw [← hTW] at hx
        exact List.mem_takeWhile_imp hx
      · intro x hx
        rw [← hTW2] at hx
        have h9 := List.mem_takeWhile_imp hx
        exact h9
      · cases htl : rest2.dropWhile (fun c => !(c == '/')) with
        | nil => exact Or.inl rfl
        | cons t0 T =>
          right
          refine ⟨T, ?_⟩
          have hfalse : (fun c => !(c == '/')) t0 = false :=
            dropWhile_head_false (fun c => !(c == '/')) rest2 t0 T htl
          have ht0 : t0 = '/' := by
            simpa using hfalse
          rw [ht0]
  · left
    rfl

theorem stripSchemeHostL_build (a : Char) (A host T : List Char)
    (hAall : ∀ x ∈ a :: A, isLowerAlpha x = true) (hh : host ≠ [])
    (hhall : ∀ x ∈ host, (!(x == '/')) = true) :
    stripSchemeHostL ((a :: A) ++ ':' :: '/' :: '/' :: (host ++ '/' :: T)) =
      '/' :: T := by
  have h1 := tw_app isLowerAlpha (a :: A) ':'
    ('/' :: '/' :: (host ++ '/' :: T)) hAall (by decide)
  have h2 := tw_app (fun c => !(c == '/')) host '/' T hhall (by decide)
  unfold stripSchemeHostL
  rw [h1.1, h1.2]
  cases host with
  | nil => exact absurd rfl hh
  | cons b B =>
    simp only []
    rw [h2.1, h2.2]

theorem stripSchemeHostL_head_not_alpha (c : Char) (R : List Char)
    (hc : isLowerAlpha c = false) :
    stripSchemeHostL (c :: R) = c :: R := by
  unfold stripSchemeHostL
  rw [List.takeWhile_cons]
  rw [hc]
  simp only [Bool.false_eq_true, if_false]

theorem stripSchemeHostL_subset (l : List Char) :
    ∀ c ∈ stripSchemeHostL l, c ∈ l := by
  rcases stripSchemeHostL_cases l with hV | ⟨a, A, host, tail, hdec, _, _, _, hS, _⟩
  · rw [hV]
    exact fun c hc => hc
  · rw [hS, hdec]
    intro c hc
    simp [hc]

/- ### Lowered character lists -/

theorem loweredL_map (l : List Char) : LoweredL (l.map lowerChar) := by
  intro c hc
  obtain ⟨x, _, rfl⟩ := List.mem_map.mp hc
  exact lowerChar_idem x

theorem LoweredL.map_eq {l : List Char} (h : LoweredL l) :
    l.map lowerChar = l :=
  (List.map_congr_left h).trans (List.map_id l)

theorem LoweredL.mono {l l2 : List Char} (h : LoweredL l)
    (hsub : ∀ c ∈ l2, c ∈ l) : LoweredL l2 :=
  fun c hc => h c (hsub c hc)

/- ### The MSN locale pattern -/

theorem msnLocCore_eq_some (x : List Char) (loc : String)
    (h : msnLocCore x = some loc) :
    ∃ a b c d rest, x = '/' :: a :: b :: '-' :: c :: d :: rest ∧
      isLowerAlpha a = true ∧ isLowerAlpha b = true ∧
      isLowerAlpha c = true ∧ isLowerAlpha d = true ∧
      (rest = [] ∨ ∃ T, rest = '/' :: T) ∧
      loc = String.mk [a, b, '-', c, d] := by
  unfold msnLocCore at h
  split at h
  · rename_i a b c d rest
    split at h
    · rename_i halpha
      simp only [Bool.and_eq_true] at halpha
      split at h
      · cases h
        exact ⟨a, b, c, d, [], rfl, halpha.1.1.1, halpha.1.1.2, halpha.1.2,
          halpha.2, Or.inl rfl, rfl⟩
      · rename_i T
        cases h
        exact ⟨a, b, c, d, _, rfl, halpha.1.1.1, halpha.1.1.2, halpha.1.2,
          halpha.2, Or.inr ⟨T, rfl⟩, rfl⟩
      · exact absurd h (by simp)
    · exact absurd h (by simp)
  · exact absurd h (by simp)

theorem msnLocCore_build (a b c d : Char) (rest : List Char)
    (ha : isLowerAlpha a = true) (hb : isLowerAlpha b = true)
    (hc : isLowerAlpha c = true) (hd : isLowerAlpha d = true)
    (hrest : rest = [] ∨ ∃ T, rest = '/' :: T) :
    msnLocCore ('/' :: a :: b :: '-' :: c :: d :: rest) =
      some (String.mk [a, b, '-', c, d]) := by
  rcases hrest with rfl | ⟨T, rfl⟩ <;> simp [msnLocCore, ha, hb, hc, hd]

theorem rtrimL_nil : rtrimL [] = [] := rfl

/-- The key bridge: if the scheme-host-stripped list parses to an MSN
locale, then stripping after a whitespace trim parses to the same locale. -/
theorem stripSchemeHost_trim_bridge (V : List Char) (loc : String)
    (h : msnLocCore (stripSchemeHostL V) = some loc) :
    msnLocCore (stripSchemeHostL (trimL V)) = some loc := by
  rcases stripSchemeHostL_cases V with hV |
    ⟨a, A, host, tail, hdec, hAall, hh, hhall, hS, _⟩
  · rw [hV] at h
    obtain ⟨a, b, c, d, rest, hx, ha, hb, hc, hd, hrest, hloc⟩ :=
      msnLocCore_eq_some V loc h
    subst hx
    rcases hrest with rfl | ⟨T, rfl⟩
    · have htrim : trimL ('/' :: a :: b :: '-' :: c :: d :: []) =
          '/' :: a :: b :: '-' :: c :: d :: [] := by
        unfold trimL
        rw [List.dropWhile_cons_of_neg (by decide)]
        have h5 := rtrimL_append_cons ['/', a, b, '-', c] [] d
          (isLowerAlpha_not_space d hd)
        simpa [rtrimL_nil] using h5
      rw [htrim, stripSchemeHostL_head_not_alpha '/' _ (by decide)]
      exact h
    · have htrim : trimL ('/' :: a :: b :: '-' :: c :: d :: '/' :: T) =
          '/' :: a :: b :: '-' :: c :: d :: '/' :: rtrimL T := by
        unfold trimL
        rw [List.dropWhile_cons_of_neg (by decide)]
        have h5 := rtrimL_append_cons ['/', a, b, '-', c, d] T '/' (by decide)
        simpa using h5
      rw [htrim, stripSchemeHostL_head_not_alpha '/' _ (by decide)]
      rw [msnLocCore_build a b c d ('/' :: rtrimL T) ha hb hc hd
        (Or.inr ⟨rtrimL T, rfl⟩)]
      rw [hloc]
  · rw [hS] at h
    obtain ⟨b1, b2, b3, b4, rest, hx, hb1, hb2, hb3, hb4, hrest, hloc⟩ :=
      msnLocCore_eq_some tail loc h
    subst hx
    have haheadalpha : isLowerAlpha a = true := hAall a (by simp)
    have haheadspace : isSpaceChar a = false :=
      isLowerAlpha_not_space a haheadalpha
    rcases hrest with rfl | ⟨T, rfl⟩
    · have hV2 : V = ((a :: A) ++ ':' :: '/' :: '/' ::
          (host ++ ['/', b1, b2, '-', b3])) ++ b4 :: [] := by
        rw [hdec]
        simp
      have htrim : trimL V = V := by
        unfold trimL
        rw [show V.dropWhile isSpaceChar = V from by
          rw [hdec]
          simp only [List.cons_append]
          exact List.dropWhile_cons_of_neg (by simp [haheadspace])]
        rw [hV2, rtrimL_append_cons _ _ _ (isLowerAlpha_not_space b4 hb4),
          rtrimL_nil]
      rw [htrim, hS]
      exact h
    · have hV2 : V = ((a :: A) ++ ':' :: '/' :: '/' ::
          (host ++ ['/', b1, b2, '-', b3, b4])) ++ '/' :: T := by
        rw [hdec]
        simp
      have htrim : trimL V = ((a :: A) ++ ':' :: '/' :: '/' ::
          (host ++ ['/', b1, b2, '-', b3, b4])) ++ '/' :: rtrimL T := by
        unfold trimL
        rw [show V.dropWhile isSpaceChar = V from by
          rw [hdec]
          simp only [List.cons_append]
          exact List.dropWhile_cons_of_neg (by simp [haheadspace])]
        rw [hV2, rtrimL_append_cons _ _ _ (by decide : isSpaceChar '/' = false)]
      have hre : ((a :: A) ++ ':' :: '/' :: '/' ::
          (host ++ ['/', b1, b2, '-', b3, b4])) ++ '/' :: rtrimL T =
          (a :: A) ++ ':' :: '/' :: '/' ::
            (host ++ '/' :: (b1 :: b2 :: '-' :: b3 :: b4 :: '/' :: rtrimL T)) := by
        simp
      rw [htrim, hre, stripSchemeHostL_build a A host
        (b1 :: b2 :: '-' :: b3 :: b4 :: '/' :: rtrimL T) hAall hh hhall]
      rw [msnLocCore_build b1 b2 b3 b4 ('/' :: rtrimL T) hb1 hb2 hb3 hb4
        (Or.inr ⟨rtrimL T, rfl⟩)]
      rw [hloc]

/-- Containing the literal marker after strip and lowercase implies the
case-insensitive dot-wildcard regex of the flag engine matches. -/
theorem msnRegex_of_contains (s : String)
    (h : containsSub (lowerS (trimS s)) "msn.com" = true) :
    msnRegexContains s = true := by
  rw [← trimS_lowerS] at h
  unfold containsSub at h
  rw [List.any_eq_true] at h
  obtain ⟨t, ht, hpre⟩ := h
  rw [List.mem_tails] at ht
  rw [List.isPrefixOf_iff_prefix] at hpre
  obtain ⟨s0, hs0⟩ := ht
  obtain ⟨t1, ht1⟩ := hpre
  obtain ⟨l1, l2, hdec⟩ := trimL_infix (lowerS s).data
  unfold msnRegexContains
  rw [List.any_eq_true]
  refine ⟨'m' :: 's' :: 'n' :: '.' :: 'c' :: 'o' :: 'm' :: (t1 ++ l2),
    ?_, rfl⟩
  rw [List.mem_tails]
  refine ⟨l1 ++ s0, ?_⟩
  have hm : ("msn.com".data : List Char) =
      ['m', 's', 'n', '.', 'c', 'o', 'm'] := rfl
  have hs0b : s0 ++ t = trimL (lowerS s).data := hs0
  rw [hdec, ← hs0b, ← ht1, hm]
  simp

/-- String-level locale bridge: the flag engine's (unstripped) MSN locale
propagates to the mapper's (stripped) MSN locale. -/
theorem msn_locale_strip_bridge (u : String) (loc : String)
    (h : msn_locale (stripSchemeHost (lowerS u)) = some loc) :
    msn_locale (stripSchemeHost (lowerS (trimS u))) = some loc := by
  have hlow1 : LoweredL (stripSchemeHostL (u.data.map lowerChar)) :=
    (loweredL_map u.data).mono (stripSchemeHostL_subset _)
  have hlow2 : LoweredL (trimL (u.data.map lowerChar)) :=
    (loweredL_map u.data).mono (trimL_subset _)
  have e1 : msn_locale (stripSchemeHost (lowerS u)) =
      msnLocCore (stripSchemeHostL (u.data.map lowerChar)) := by
    show msnLocCore
      ((stripSchemeHostL (u.data.map lowerChar)).map lowerChar) = _
    rw [hlow1.map_eq]
  have e2 : msn_locale (stripSchemeHost (lowerS (trimS u))) =
      msnLocCore (stripSchemeHostL (trimL (u.data.map lowerChar))) := by
    show msnLocCore
      ((stripSchemeHostL ((trimL u.data).map lowerChar)).map lowerChar) = _
    rw [← trimL_map_lower u.data,
      (hlow2.mono (stripSchemeHostL_subset _)).map_eq]
  rw [e2]
  rw [e1] at h
  exact stripSchemeHost_trim_bridge _ _ h

/- ### Claim C3 -/

/-- C3: for a row whose resolved URL contains the MSN marker, the outlet
mapping returns ("Tech", "MSN") when the first locale-shaped path segment is
en-us or es-us, and ("REMOVE", "REMOVE") otherwise; on such an excluded row
the suppress reasons contain "MSN Non-US", "REMOVE Group" and
"REMOVE Outlet". -/
theorem C3_msn_outlet_mapping (net : String → Option String)
    (scrape : String → String) (orefs : List OutletRef)
    (jrefs : List JournalistRef) (rows : List InRow) :
    ∀ r ∈ runPipeline net scrape orefs jrefs rows,
      containsSub (lowerS (trimS r.resolved)) "msn.com" = true →
      ((msn_locale (stripSchemeHost (lowerS (trimS r.resolved))) =
          some "en-us" ∨
        msn_locale (stripSchemeHost (lowerS (trimS r.resolved))) =
          some "es-us") →
        (r.group, r.outlet) = ("Tech", "MSN")) ∧
      (¬(msn_locale (stripSchemeHost (lowerS (trimS r.resolved))) =
          some "en-us" ∨
         msn_locale (stripSchemeHost (lowerS (trimS r.resolved))) =
          some "es-us") →
        (r.group, r.outlet) = ("REMOVE", "REMOVE") ∧
        "MSN Non-US" ∈ r.reasons ∧ "REMOVE Group" ∈ r.reasons ∧
        "REMOVE Outlet" ∈ r.reasons) := by
  intro r hr
  obtain ⟨p, d, hpmem, rfl⟩ := mem_flagRows hr
  simp only [procsOf, List.mem_map] at hpmem
  obtain ⟨a2, ⟨b2, hb2, ha2⟩, hp2⟩ := hpmem
  subst ha2
  subst hp2
  intro hcont
  rw [mkOutRow_resolved] at hcont
  simp only [mkOutRow_resolved, mkOutRow_group, mkOutRow_outlet,
    mkOutRow_reasons]
  have hg : (processRow net scrape (masterMapLookup orefs)
      (stripPubRow b2)).group =
      (map_group_outlet
        (processRow net scrape (masterMapLookup orefs)
          (stripPubRow b2)).resolved
        (processRow net scrape (masterMapLookup orefs)
          (stripPubRow b2)).pub
        (masterMapLookup orefs)).1 := rfl
  have ho : (processRow net scrape (masterMapLookup orefs)
      (stripPubRow b2)).outlet =
      (map_group_outlet
        (processRow net scrape (masterMapLookup orefs)
          (stripPubRow b2)).resolved
        (processRow net scrape (masterMapLookup orefs)
          (stripPubRow b2)).pub
        (masterMapLookup orefs)).2 := rfl
  constructor
  · intro hus
    have hmap : map_group_outlet
        (processRow net scrape (masterMapLookup orefs)
          (stripPubRow b2)).resolved
        (processRow net scrape (masterMapLookup orefs)
          (stripPubRow b2)).pub
        (masterMapLookup orefs) = ("Tech", "MSN") := by
      simp only [map_group_outlet]
      rw [hcont]
      rcases hus with h1 | h1 <;> rw [h1] <;> rfl
    rw [hg, ho, hmap]
  · intro hnus
    have hmap : map_group_outlet
        (processRow net scrape (masterMapLookup orefs)
          (stripPubRow b2)).resolved
        (processRow net scrape (masterMapLookup orefs)
          (stripPubRow b2)).pub
        (masterMapLookup orefs) = ("REMOVE", "REMOVE") := by
      simp only [map_group_outlet]
      rw [hcont]
      cases hm : msn_locale (stripSchemeHost (lowerS (trimS
          (processRow net scrape (masterMapLookup orefs)
            (stripPubRow b2)).resolved))) with
      | none => rfl
      | some loc =>
        cases hcl : usMsnLocales.contains loc with
        | false =>
          simp [hcl]
          intro hmem
          have hel : usMsnLocales.contains loc = true := List.elem_iff.mpr hmem
          rw [hcl] at hel
          cases hel
        | true =>
          exfalso
          have hmem : loc ∈ usMsnLocales := List.elem_iff.mp hcl
          have hlo : loc = "en-us" ∨ loc = "es-us" := by
            simpa [usMsnLocales] using hmem
          rcases hlo with rfl | rfl
          · exact hnus (Or.inl hm)
          · exact hnus (Or.inr hm)
    refine ⟨by rw [hg, ho, hmap], ?_, ?_, ?_⟩
    · rw [mem_rowReasons_msn, Bool.and_eq_true]
      refine ⟨msnRegex_of_contains _ hcont, ?_⟩
      cases hm : msn_locale (stripSchemeHost (lowerS
          (processRow net scrape (masterMapLookup orefs)
            (stripPubRow b2)).resolved)) with
      | none => rfl
      | some loc =>
        cases hcl : usMsnLocales.contains loc with
        | false =>
          simp [hcl]
          intro hmem
          have hel : usMsnLocales.contains loc = true := List.elem_iff.mpr hmem
          rw [hcl] at hel
          cases hel
        | true =>
          exfalso
          have hbridge := msn_locale_strip_bridge
            (processRow net scrape (masterMapLookup orefs)
              (stripPubRow b2)).resolved loc hm
          have hmem : loc ∈ usMsnLocales := List.elem_iff.mp hcl
          have hlo : loc = "en-us" ∨ loc = "es-us" := by
            simpa [usMsnLocales] using hmem
          rcases hlo with rfl | rfl
          · exact hnus (Or.inl hbridge)
          · exact hnus (Or.inr hbridge)
    · rw [mem_rowReasons_rg]
      have hgr : (processRow net scrape (masterMapLookup orefs)
          (stripPubRow b2)).group = "REMOVE" := by
        rw [hg, hmap]
      rw [hgr]
      decide
    · rw [mem_rowReasons_ro]
      have hor : (processRow net scrape (masterMapLookup orefs)
          (stripPubRow b2)).outlet = "REMOVE" := by
        rw [ho, hmap]
      rw [hor]
      decide

/-- Witness for C3: an excluded MSN row (`/en-gb/` locale) gets the REMOVE
mapping and the three reasons. -/
theorem C3_witness :
    ((msn_locale (stripSchemeHost (lowerS (trimS
        (((runPipeline (fun _ => none) (fun _ => "") [] []
          [InRow.mk "p" "j" (some "https://www.msn.com/en-gb/news/story")]
          ).headD emptyOutRow).resolved)))) = some "en-us" ∨
      msn_locale (stripSchemeHost (lowerS (trimS
        (((runPipeline (fun _ => none) (fun _ => "") [] []
          [InRow.mk "p" "j" (some "https://www.msn.com/en-gb/news/story")]
          ).headD emptyOutRow).resolved)))) = some "es-us") →
      ((((runPipeline (fun _ => none) (fun _ => "") [] []
          [InRow.mk "p" "j" (some "https://www.msn.com/en-gb/news/story")]
          ).headD emptyOutRow).group,
        (((runPipeline (fun _ => none) (fun _ => "") [] []
          [InRow.mk "p" "j" (some "https://www.msn.com/en-gb/news/story")]
          ).headD emptyOutRow)).outlet) = ("Tech", "MSN"))) ∧
    (¬(msn_locale (stripSchemeHost (lowerS (trimS
        (((runPipeline (fun _ => none) (fun _ => "") [] []
          [InRow.mk "p" "j" (some "https://www.msn.com/en-gb/news/story")]
          ).headD emptyOutRow).resolved)))) = some "en-us" ∨
       msn_locale (stripSchemeHost (lowerS (trimS
        (((runPipeline (fun _ => none) (fun _ => "") [] []
          [InRow.mk "p" "j" (some "https://www.msn.com/en-gb/news/story")]
          ).headD emptyOutRow).resolved)))) = some "es-us") →
      ((((runPipeline (fun _ => none) (fun _ => "") [] []
          [InRow.mk "p" "j" (some "https://www.msn.com/en-gb/news/story")]
          ).headD emptyOutRow).group,
        (((runPipeline (fun _ => none) (fun _ => "") [] []
          [InRow.mk "p" "j" (some "https://www.msn.com/en-gb/news/story")]
          ).headD emptyOutRow)).outlet) = ("REMOVE", "REMOVE") ∧
       "MSN Non-US" ∈ (((runPipeline (fun _ => none) (fun _ => "") [] []
          [InRow.mk "p" "j" (some "https://www.msn.com/en-gb/news/story")]
          ).headD emptyOutRow)).reasons ∧
       "REMOVE Group" ∈ (((runPipeline (fun _ => none) (fun _ => "") [] []
          [InRow.mk "p" "j" (some "https://www.msn.com/en-gb/news/story")]
          ).headD emptyOutRow)).reasons ∧
       "REMOVE Outlet" ∈ (((runPipeline (fun _ => none) (fun _ => "") [] []
          [InRow.mk "p" "j" (some "https://www.msn.com/en-gb/news/story")]
          ).headD emptyOutRow)).reasons)) :=
  C3_msn_outlet_mapping (fun _ => none) (fun _ => "") [] []
    [InRow.mk "p" "j" (some "https://www.msn.com/en-gb/news/story")]
    ((runPipeline (fun _ => none) (fun _ => "") [] []
      [InRow.mk "p" "j" (some "https://www.msn.com/en-gb/news/story")]
      ).headD emptyOutRow)
    (by decide) (by decide)

/-- Witness for C1: the flag/reason invariants evaluated on a concrete MSN
row that accumulates several reasons. -/
theorem C1_witness :
    (c1Row.flag = "R" ↔ c1Row.reasons ≠ []) ∧
    c1Row.rReason = String.intercalate "; " c1Row.reasons ∧
    isSubseqL c1Row.reasons reasonOrder = true ∧
    ¬("MSN Non-US" ∈ c1Row.reasons ∧ "Non-US URL" ∈ c1Row.reasons) :=
  C1_flag_reason_engine (fun _ => none) (fun _ => "") [] []
    [InRow.mk "p" "j" (some "https://www.msn.com/en-gb/x")] c1Row (by decide)

end TopMediaCombiner
